import Mathlib

/-!
# Total Tab Timer: the background timer manager

A shallow embedding of `src/background/service-worker.js` (class `TabTimerManager`
and the `chrome.runtime.onMessage` handler).

* The `Map` held in `this.timers` is an insertion-ordered association list.
* The platform alarm registry (`chrome.alarms`) is a list of named alarms;
  `create` replaces an alarm of the same name, `clear` removes it.
* The tab collaborator (`chrome.tabs.get`, `chrome.tabs.remove`) and the clock
  (`Date.now()`) are parameters of the operations that consult them.
* Every operation runs to completion before the next one starts.
-/

namespace TabTimer

/-! ## JavaScript strings and numbers -/

/-- Rendering of an integer by `Number.prototype.toString` and by template literals. -/
def numToString (n : Int) : String :=
  match n with
  | Int.ofNat m => String.mk (Nat.toDigits 10 m)
  | Int.negSucc m => String.mk ('-' :: Nat.toDigits 10 (m + 1))

/-- Value of a decimal digit character, `none` for any other character. -/
def digitVal (c : Char) : Option Nat :=
  if c = '0' then some 0 else
  if c = '1' then some 1 else
  if c = '2' then some 2 else
  if c = '3' then some 3 else
  if c = '4' then some 4 else
  if c = '5' then some 5 else
  if c = '6' then some 6 else
  if c = '7' then some 7 else
  if c = '8' then some 8 else
  if c = '9' then some 9 else none

/-- Reads the longest run of decimal digits at the head of `cs`, continuing from the
value `acc` read so far. -/
def parseDigits (acc : Nat) : List Char → Nat
  | [] => acc
  | c :: cs =>
    match digitVal c with
    | some d => parseDigits (acc * 10 + d) cs
    | none => acc

/-- Radix-10 part of `parseInt`: `none` (NaN) unless the text starts with a digit. -/
def parseNat (cs : List Char) : Option Nat :=
  match cs with
  | [] => none
  | c :: _ =>
    match digitVal c with
    | some _ => some (parseDigits 0 cs)
    | none => none

/-- The code points of `WhiteSpace` and `LineTerminator`, which `parseInt` skips at the
start of its argument. -/
def isWhiteSpace (c : Char) : Bool :=
  let n := c.toNat
  n == 0x09 || n == 0x0A || n == 0x0B || n == 0x0C || n == 0x0D || n == 0x20 ||
  n == 0xA0 || n == 0x1680 || (decide (0x2000 ≤ n) && decide (n ≤ 0x200A)) ||
  n == 0x2028 || n == 0x2029 || n == 0x202F || n == 0x205F || n == 0x3000 || n == 0xFEFF

/-- Value of a hexadecimal digit character, `none` for any other character. -/
def hexVal (c : Char) : Option Nat :=
  match digitVal c with
  | some d => some d
  | none =>
    if c = 'a' ∨ c = 'A' then some 10 else
    if c = 'b' ∨ c = 'B' then some 11 else
    if c = 'c' ∨ c = 'C' then some 12 else
    if c = 'd' ∨ c = 'D' then some 13 else
    if c = 'e' ∨ c = 'E' then some 14 else
    if c = 'f' ∨ c = 'F' then some 15 else none

/-- Reads the longest run of hexadecimal digits at the head of `cs`. -/
def parseHexDigits (acc : Nat) : List Char → Nat
  | [] => acc
  | c :: cs =>
    match hexVal c with
    | some d => parseHexDigits (acc * 16 + d) cs
    | none => acc

/-- Radix-16 part of `parseInt`: `none` (NaN) unless the text starts with a hexadecimal
digit. -/
def parseHex (cs : List Char) : Option Nat :=
  match cs with
  | [] => none
  | c :: _ =>
    match hexVal c with
    | some _ => some (parseHexDigits 0 cs)
    | none => none

/-- Unsigned part of `parseInt` without a radix argument: radix 16 after a prefix `0x` or
`0X`, radix 10 otherwise. -/
def parseMagnitude (cs : List Char) : Option Nat :=
  match cs with
  | '0' :: 'x' :: rest => parseHex rest
  | '0' :: 'X' :: rest => parseHex rest
  | _ => parseNat cs

/-- The builtin `parseInt(s)` without a radix argument: leading white space is skipped,
an optional sign is read, a prefix `0x` or `0X` selects radix 16, and the longest run of
digits of the radix is the value; the result is `none` (NaN) when no digit was read.  The
value is the exact integer, which is what the code's double holds below 2^53. -/
def parseInt (s : String) : Option Int :=
  match s.data.dropWhile isWhiteSpace with
  | '-' :: cs => (parseMagnitude cs).map (fun n => - (n : Int))
  | '+' :: cs => (parseMagnitude cs).map (fun n => (n : Int))
  | cs => (parseMagnitude cs).map (fun n => (n : Int))

/-- The builtin `String.prototype.startsWith`. -/
def startsWith (s p : String) : Bool :=
  p.data.isPrefixOf s.data

/-- Replaces the first occurrence of `pat` in `cs` by `rep` (character lists). -/
def replaceFirst (pat rep : List Char) : List Char → List Char
  | [] => if pat.isEmpty then rep else []
  | c :: cs =>
    if pat.isPrefixOf (c :: cs) then rep ++ (c :: cs).drop pat.length
    else c :: replaceFirst pat rep cs

/-- The builtin `String.prototype.replace` with a string pattern: only the first
occurrence is replaced. -/
def replace (s pat rep : String) : String :=
  String.mk (replaceFirst pat.data rep.data s.data)

/-! ## Data model -/

/-- A timer record as built in `createTimer`. -/
structure Timer where
  id : String
  tabId : Int
  endTime : Int
  type : String
  label : String
  created : Nat
  url : String
  title : String
deriving DecidableEq, Repr

/-- What `chrome.tabs.get` resolves to. -/
structure Tab where
  url : String
  title : String
deriving DecidableEq, Repr

/-- An entry of the platform alarm registry. -/
structure Alarm where
  name : String
  scheduledTime : Int
deriving DecidableEq, Repr

/-- The `Map` in `this.timers`, in insertion order. -/
abbrev TimerMap := List (String × Timer)

namespace TimerMap

/-- `Map.prototype.has`. -/
def has (m : TimerMap) (k : String) : Bool :=
  m.any (fun e => e.1 == k)

/-- `Map.prototype.get`; `none` is `undefined`. -/
def get (m : TimerMap) (k : String) : Option Timer :=
  (m.find? (fun e => e.1 == k)).map (fun e => e.2)

/-- `Map.prototype.set`: an existing key keeps its position, a new key is appended. -/
def set (m : TimerMap) (k : String) (v : Timer) : TimerMap :=
  if has m k then m.map (fun e => if e.1 == k then (k, v) else e)
  else m ++ [(k, v)]

/-- `Map.prototype.delete`. -/
def delete (m : TimerMap) (k : String) : TimerMap :=
  m.filter (fun e => !(e.1 == k))

/-- `Map.prototype.values` collected by `Array.from`. -/
def values (m : TimerMap) : List Timer :=
  m.map (fun e => e.2)

/-- The keys of the map, in order. -/
def keys (m : TimerMap) : List String :=
  m.map (fun e => e.1)

end TimerMap

/-- The manager's memory (`this.timers`) together with the platform alarm registry. -/
structure State where
  timers : TimerMap
  alarms : List Alarm
deriving DecidableEq, Repr

/-- Name of the alarm of a timer: the template literal with prefix `timer_`. -/
def alarmName (timerId : String) : String :=
  "timer_" ++ timerId

/-- `chrome.alarms.create(name, {when})`: an alarm of the same name is cancelled and
replaced. -/
def alarmsCreate (as : List Alarm) (name : String) (scheduled : Int) : List Alarm :=
  as.filter (fun a => !(a.name == name)) ++ [⟨name, scheduled⟩]

/-- `chrome.alarms.clear(name)`. -/
def alarmsClear (as : List Alarm) (name : String) : List Alarm :=
  as.filter (fun a => !(a.name == name))

/-! ## Operations of `TabTimerManager` -/

/-- `createAlarm(timerId, endTime)`. -/
def createAlarm (s : State) (timerId : String) (endTime : Int) : State :=
  { s with alarms := alarmsCreate s.alarms (alarmName timerId) endTime }

/-- Body of the first loop of `restoreAlarms`: `snapshot` is the result of
`chrome.alarms.getAll()` taken before the loop, the accumulator is `validTimerIds`
with the current state. -/
def restoreLoop (now : Nat) (snapshot : List Alarm) :
    List (String × Timer) → List String × State → List String × State
  | [], acc => acc
  | (timerId, timer) :: rest, (validTimerIds, st) =>
    if timer.endTime > (now : Int) then
      let alarmExists := snapshot.any (fun alarm => alarm.name == alarmName timerId)
      let st1 := if !alarmExists then createAlarm st timerId timer.endTime else st
      restoreLoop now snapshot rest (validTimerIds ++ [timerId], st1)
    else
      restoreLoop now snapshot rest (validTimerIds, st)

/-- Second loop of `restoreAlarms`: deletes every key that is not in `validTimerIds`. -/
def pruneLoop (validTimerIds : List String) : List (String × Timer) → TimerMap → TimerMap
  | [], m => m
  | (timerId, _) :: rest, m =>
    if !(validTimerIds.contains timerId) then pruneLoop validTimerIds rest (m.delete timerId)
    else pruneLoop validTimerIds rest m

/-- `restoreAlarms()`.  The readings of `Date.now()` inside the loop are taken at one
instant `now`; `s.alarms` is what `chrome.alarms.getAll()` returns. -/
def restoreAlarms (now : Nat) (s : State) : State :=
  let r := restoreLoop now s.alarms s.timers ([], s)
  { r.2 with timers := pruneLoop r.1 r.2.timers r.2.timers }

/-- `createTimer(tabId, endTime, type, label)`.  `tabsGet` is `chrome.tabs.get` (`none`
when it rejects), `nowId` and `nowCreated` are the two readings of `Date.now()`, and an
absent `type` or `label` takes the default of the parameter list.  The result `none` is
`null`. -/
def createTimer (tabsGet : Int → Option Tab) (nowId nowCreated : Nat) (s : State)
    (tabId : Int) (endTime : Int) (type label : Option String) : Option Timer × State :=
  let timerId := numToString tabId ++ "_" ++ numToString nowId
  match parseInt (numToString tabId) with
  | none => (none, s)
  | some tid =>
    match tabsGet tid with
    | none => (none, s)
    | some tab =>
      let timer : Timer :=
        { id := timerId
          tabId := tid
          endTime := endTime
          type := type.getD "countdown"
          label := label.getD ""
          created := nowCreated
          url := tab.url
          title := tab.title }
      (some timer, createAlarm { s with timers := s.timers.set timerId timer } timerId endTime)

/-- `removeTimer(timerId)`. -/
def removeTimer (s : State) (timerId : String) : Bool × State :=
  if s.timers.has timerId then
    (true, { timers := s.timers.delete timerId
             alarms := alarmsClear s.alarms (alarmName timerId) })
  else (false, s)

/-- `updateTimer(timerId, newEndTime, newLabel)`; `newLabel = none` is `undefined`. -/
def updateTimer (s : State) (timerId : String) (newEndTime : Int)
    (newLabel : Option String) : Option Timer × State :=
  if s.timers.has timerId then
    match s.timers.get timerId with
    | none => (none, s)
    | some old =>
      let timer : Timer :=
        { old with
          endTime := newEndTime
          label := match newLabel with
            | some l => l
            | none => old.label }
      let s1 : State := { s with timers := s.timers.set timerId timer }
      let s2 : State := { s1 with alarms := alarmsClear s1.alarms (alarmName timerId) }
      (some timer, createAlarm s2 timerId newEndTime)
  else (none, s)

/-- Loop of `updateTimerUrl`: `tid` is `parseInt(tabId)`. -/
def urlLoop (tid : Option Int) (newUrl : String) : List (String × Timer) → TimerMap → TimerMap
  | [], m => m
  | (timerId, timer) :: rest, m =>
    if some timer.tabId = tid then
      urlLoop tid newUrl rest (m.set timerId { timer with url := newUrl })
    else urlLoop tid newUrl rest m

/-- `updateTimerUrl(tabId, newUrl)`. -/
def updateTimerUrl (s : State) (tabId : String) (newUrl : String) : State :=
  { s with timers := urlLoop (parseInt tabId) newUrl s.timers s.timers }

/-- Outcome of `handleAlarm`: the state left behind and the tab ids passed to
`chrome.tabs.remove`, in order. -/
structure AlarmOutcome where
  state : State
  closeAttempts : List Int
deriving DecidableEq, Repr

/-- `handleAlarm(alarm)` on an alarm of the given name.  `tabsRemove` is
`chrome.tabs.remove`, whose rejection (`Except.error`) is caught by the `try`; an
`Except.error` result of `handleAlarm` itself would be an exception leaving it. -/
def handleAlarm (tabsRemove : Int → Except String Unit) (s : State) (name : String) :
    Except String AlarmOutcome :=
  if !(startsWith name "timer_") then .ok ⟨s, []⟩
  else
    let timerId := replace name "timer_" ""
    match s.timers.get timerId with
    | none => .ok ⟨s, []⟩
    | some timer =>
      let attempt : Except String Unit :=
        match tabsRemove timer.tabId with
        | .ok u => .ok u
        | .error _ => .ok ()
      match attempt with
      | .error e => .error e
      | .ok _ => .ok ⟨{ s with timers := s.timers.delete timerId }, [timer.tabId]⟩

/-- `getTimers()`. -/
def getTimers (s : State) : List Timer :=
  s.timers.values

/-- `getTimersByTab(tabId)`. -/
def getTimersByTab (s : State) (tabId : Int) : List Timer :=
  (getTimers s).filter (fun timer => some timer.tabId = parseInt (numToString tabId))

/-- `getActiveTimersCount()`. -/
def getActiveTimersCount (now : Nat) (s : State) : Nat :=
  ((getTimers s).filter (fun timer => timer.endTime > (now : Int))).length

/-! ## Event listeners -/

/-- The `chrome.tabs.onRemoved` listener. -/
def onRemoved (s : State) (tabId : Int) : State :=
  (removeTimer s (numToString tabId)).2

/-- The `chrome.tabs.onUpdated` listener; `url` is `changeInfo.url`, and the empty
string is falsy. -/
def onUpdated (s : State) (tabId : Int) (url : Option String) : State :=
  match url with
  | none => s
  | some u => if u = "" then s else updateTimerUrl s (numToString tabId) u

/-- A command received by the `chrome.runtime.onMessage` listener. -/
inductive Request where
  | createTimer (tabId : Int) (endTime : Int) (type label : Option String)
  | removeTimer (timerId : String)
  | updateTimer (timerId : String) (endTime : Int) (label : Option String)
  | getTimers
  | getTimersByTab (tabId : Int)
  | getActiveTimersCount
  | other (action : String)
deriving DecidableEq, Repr

/-- The object passed to `sendResponse`; a field that the handler does not write is
`none`. -/
structure Response where
  success : Bool
  timer : Option (Option Timer) := none
  timers : Option (List Timer) := none
  count : Option Nat := none
  error : Option String := none
deriving DecidableEq, Repr

/-- The `chrome.runtime.onMessage` listener: the response sent and the state left. -/
def onMessage (tabsGet : Int → Option Tab) (now1 now2 : Nat) (s : State) :
    Request → Response × State
  | .createTimer tabId endTime type label =>
    let r := createTimer tabsGet now1 now2 s tabId endTime type label
    ({ success := true, timer := some r.1 }, r.2)
  | .removeTimer timerId =>
    let r := removeTimer s timerId
    ({ success := r.1 }, r.2)
  | .updateTimer timerId endTime label =>
    let r := updateTimer s timerId endTime label
    ({ success := r.1.isSome, timer := some r.1 }, r.2)
  | .getTimers => ({ success := true, timers := some (getTimers s) }, s)
  | .getTimersByTab tabId => ({ success := true, timers := some (getTimersByTab s tabId) }, s)
  | .getActiveTimersCount =>
    ({ success := true, count := some (getActiveTimersCount now1 s) }, s)
  | .other _ => ({ success := false, error := some "Unknown action" }, s)

/-- The record written by `updateTimer` over `old`. -/
def updatedTimer (old : Timer) (newEndTime : Int) (newLabel : Option String) : Timer :=
  { old with
    endTime := newEndTime
    label := match newLabel with
      | some l => l
      | none => old.label }

/-! ## The background script as a transition system -/

/-- An event delivered to the background script, together with the answers the
collaborators give while it is handled. -/
inductive Event where
  | message (tabsGet : Int → Option Tab) (now1 now2 : Nat) (req : Request)
  | tabRemoved (tabId : Int)
  | tabUpdated (tabId : Int) (url : Option String)
  | alarmFired (tabsRemove : Int → Except String Unit) (name : String)

/-- Handling of one event.  An alarm that fires is one-shot: the platform drops it from
the registry before the `onAlarm` listener runs. -/
def step (s : State) : Event → State
  | .message tabsGet now1 now2 req => (onMessage tabsGet now1 now2 s req).2
  | .tabRemoved tabId => onRemoved s tabId
  | .tabUpdated tabId url => onUpdated s tabId url
  | .alarmFired tabsRemove name =>
    let s1 : State := { s with alarms := alarmsClear s.alarms name }
    match handleAlarm tabsRemove s1 name with
    | .ok out => out.state
    | .error _ => s1

/-- Handling of a sequence of events, one after the other. -/
def run (s : State) (events : List Event) : State :=
  events.foldl step s

/-- Every timer in the store has an alarm under its name at its `endTime`, and no alarm
under its name at another instant. -/
def AlarmsInSync (s : State) : Prop :=
  ∀ e ∈ s.timers,
    (⟨alarmName e.1, e.2.endTime⟩ : Alarm) ∈ s.alarms ∧
    ∀ a ∈ s.alarms, a.name = alarmName e.1 → a.scheduledTime = e.2.endTime

/-! ## Sample states -/

/-- A countdown timer with the given key, tab and expiry. -/
def sampleTimer (id : String) (tabId : Int) (endTime : Int) : Timer :=
  { id := id, tabId := tabId, endTime := endTime, type := "countdown", label := "Break",
    created := 100, url := "https://example.org/", title := "Example" }

/-- Three timers on tab 7 and one on tab 8, each with its alarm. -/
def cascadeState : State :=
  { timers := [("7_100", sampleTimer "7_100" 7 60100), ("7_200", sampleTimer "7_200" 7 60200),
      ("7_300", sampleTimer "7_300" 7 60300), ("8_100", sampleTimer "8_100" 8 60100)]
    alarms := [⟨"timer_7_100", 60100⟩, ⟨"timer_7_200", 60200⟩, ⟨"timer_7_300", 60300⟩,
      ⟨"timer_8_100", 60100⟩] }

/-- The state of a manager that holds no timer. -/
def emptyState : State :=
  { timers := [], alarms := [] }

/-- A tab collaborator in which no tab exists. -/
def noTabs : Int → Option Tab :=
  fun _ => none

/-- A persisted store met at startup: one timer an hour ahead without an alarm, one
expired timer, one timer whose alarm survived. -/
def persistedState : State :=
  { timers := [("7_100", sampleTimer "7_100" 7 3601000), ("8_50", sampleTimer "8_50" 8 500),
      ("9_70", sampleTimer "9_70" 9 5000)]
    alarms := [⟨"timer_9_70", 5000⟩] }

/-- A persisted timer whose `endTime` is 60100 while the alarm that survived under its
name is set for 30100. -/
def staleState : State :=
  { timers := [("7_100", sampleTimer "7_100" 7 60100)]
    alarms := [⟨"timer_7_100", 30100⟩] }

/-- A tab collaborator whose `remove` always rejects. -/
def closeFails : Int → Except String Unit :=
  fun _ => .error "No tab with id"

/-- A store whose only timer has an id that itself contains `timer_`. -/
def nestedNameState : State :=
  { timers := [("timer_5", sampleTimer "timer_5" 5 60100)]
    alarms := [⟨"timer_timer_5", 60100⟩] }

/-- A create on tab 7, a navigation of tab 7, an update of timer `9_70`, the alarm of
timer `7_100` firing while its tab is gone, and the close of tab 9. -/
def sampleEvents : List Event :=
  [.message (fun _ => some ⟨"https://a.example/", "A"⟩) 2000 2000
      (.createTimer 7 62000 none (some "Break")),
    .tabUpdated 7 (some "https://b.example/"),
    .message noTabs 3000 3000 (.updateTimer "9_70" 90000 none),
    .alarmFired closeFails "timer_7_100",
    .tabRemoved 9]

/-- The record built by `createTimer` when `chrome.tabs.get` resolves to `tab`. -/
def createdTimer (tab : Tab) (nowId nowCreated : Nat) (tabId endTime : Int)
    (type label : Option String) : Timer :=
  { id := numToString tabId ++ "_" ++ numToString nowId
    tabId := tabId
    endTime := endTime
    type := type.getD "countdown"
    label := label.getD ""
    created := nowCreated
    url := tab.url
    title := tab.title }

/-- A tab collaborator in which every tab exists. -/
def someTabs : Int → Option Tab :=
  fun _ => some ⟨"https://a.example/", "A"⟩

/-- The state after a first timer was created for tab 7 at the clock reading 1000. -/
def collisionState : State :=
  (createTimer someTabs 1000 1000 emptyState 7 61000 none (some "First")).2

/-! ## The popup (`src/popup/popup.js`, class `TabTimerPopup`) -/

namespace Popup

/-- The values that `createTimer` and `saveEditedTimer` read from their form: the
selected timer type, the label after `trim()`, the three countdown fields and the
scheduled-time field, each as the text held by the control. -/
structure Form where
  timerType : String
  label : String
  hours : String
  minutes : String
  seconds : String
  scheduledTime : String
deriving DecidableEq, Repr

/-- A message handed to `chrome.runtime.sendMessage`; an `endTime` of `none` is NaN. -/
inductive Command where
  | createTimer (tabId : Int) (endTime : Option Int) (type : String) (label : String)
  | updateTimer (timerId : String) (endTime : Option Int) (label : String)
deriving DecidableEq, Repr

/-- The `endTime` field of a message. -/
def Command.endTime : Command → Option Int
  | .createTimer _ endTime _ _ => endTime
  | .updateTimer _ endTime _ => endTime

/-- What a run of `createTimer` or `saveEditedTimer` does: return at the first guard,
show an error and return, or send a message. -/
inductive Outcome where
  | nothing
  | error (message : String)
  | sent (command : Command)
deriving DecidableEq, Repr

/-- The expression `parseInt(value) || 0`: NaN and zero both give 0.  The value and the
arithmetic done on it are exact, as the code's doubles are below 2^53. -/
def numberField (value : String) : Int :=
  match parseInt value with
  | some n => n
  | none => 0

/-- The comparison `endTime <= Date.now()`, false on NaN. -/
def notAfter (endTime : Option Int) (now : Nat) : Bool :=
  match endTime with
  | some e => decide (e ≤ (now : Int))
  | none => false

/-- The comparison `endTime - Date.now() < 30000`, false on NaN. -/
def within30000 (endTime : Option Int) (now : Nat) : Bool :=
  match endTime with
  | some e => decide (e - (now : Int) < 30000)
  | none => false

/-- `TabTimerPopup.createTimer()`.  `getTime` is `new Date(text).getTime()` (`none` for an
invalid date), `now1` and `now2` are the first and second reading of `Date.now()`, and
`currentTab` is the id of `this.currentTab`. -/
def createTimer (getTime : String → Option Int) (now1 now2 : Nat) (currentTab : Option Int)
    (form : Form) : Outcome :=
  match currentTab with
  | none => .nothing
  | some tabId =>
    let label := if form.label = "" then form.timerType ++ " timer" else form.label
    if form.timerType = "countdown" then
      let hours := numberField form.hours
      let minutes := numberField form.minutes
      let seconds := numberField form.seconds
      let totalSeconds := hours * 3600 + minutes * 60 + seconds
      if totalSeconds < 30 then .error "Timer must be at least 30 seconds"
      else .sent (.createTimer tabId (some ((now1 : Int) + totalSeconds * 1000))
        form.timerType label)
    else
      if form.scheduledTime = "" then .error "Please select a time"
      else
        let endTime := getTime form.scheduledTime
        if notAfter endTime now1 then .error "Scheduled time must be in the future"
        else if within30000 endTime now2 then
          .error "Timer must be at least 30 seconds in the future"
        else .sent (.createTimer tabId endTime form.timerType label)

/-- `TabTimerPopup.saveEditedTimer()`, on the fields of the edit form; `editingTimer` is
`this.editingTimer`. -/
def saveEditedTimer (getTime : String → Option Int) (now1 now2 : Nat)
    (editingTimer : Option Timer) (form : Form) : Outcome :=
  match editingTimer with
  | none => .nothing
  | some timer =>
    let label := if form.label = "" then form.timerType ++ " timer" else form.label
    if form.timerType = "countdown" then
      let hours := numberField form.hours
      let minutes := numberField form.minutes
      let seconds := numberField form.seconds
      let totalSeconds := hours * 3600 + minutes * 60 + seconds
      if totalSeconds < 30 then .error "Timer must be at least 30 seconds"
      else .sent (.updateTimer timer.id (some ((now1 : Int) + totalSeconds * 1000)) label)
    else
      if form.scheduledTime = "" then .error "Please select a time"
      else
        let newEndTime := getTime form.scheduledTime
        if notAfter newEndTime now1 then .error "Scheduled time must be in the future"
        else if within30000 newEndTime now2 then
          .error "Timer must be at least 30 seconds in the future"
        else .sent (.updateTimer timer.id newEndTime label)

/-- The value of `totalSeconds` computed from the countdown fields of a form. -/
def totalSeconds (form : Form) : Int :=
  numberField form.hours * 3600 + numberField form.minutes * 60 + numberField form.seconds

/-- A countdown form asking for 0 h 0 min 45 s. -/
def countdownForm : Form :=
  { timerType := "countdown", label := "Break", hours := "0", minutes := "0",
    seconds := "45", scheduledTime := "" }

/-- A countdown form asking for 0 h 0 min 29 s. -/
def shortForm : Form :=
  { timerType := "countdown", label := "", hours := "", minutes := "0",
    seconds := "29", scheduledTime := "" }

/-- A scheduled form holding a date-time text. -/
def scheduledForm : Form :=
  { timerType := "scheduled", label := "", hours := "0", minutes := "5",
    seconds := "0", scheduledTime := "2026-01-01T09:30" }

/-- A date reading under which every text denotes the instant 100000. -/
def fixedDate : String → Option Int :=
  fun _ => some 100000

/-- A date reading that knows one date-time text and answers NaN to every other text. -/
def oneDate : String → Option Int :=
  fun text => if text = "2026-01-01T09:30" then some 1767259800000 else none

/-- A scheduled form whose field holds a text that is no date. -/
def noDateForm : Form :=
  { timerType := "scheduled", label := "", hours := "0", minutes := "5",
    seconds := "0", scheduledTime := "soon" }

end Popup

/-! ## Facts about the string helpers -/

theorem digitVal_digitChar (d : Nat) (h : d < 10) : digitVal (Nat.digitChar d) = some d := by
  interval_cases d <;> decide

theorem toDigitsCore_head (fuel : Nat) : ∀ (n : Nat) (ds : List Char), n < fuel →
    ∃ c rest, Nat.toDigitsCore 10 fuel n ds = c :: rest ∧ ∃ d, digitVal c = some d := by
  induction fuel with
  | zero => intro n ds h; omega
  | succ fuel ih =>
    intro n ds h
    simp only [Nat.toDigitsCore]
    split
    · exact ⟨_, _, rfl, n % 10, digitVal_digitChar _ (Nat.mod_lt _ (by omega))⟩
    · rename_i hne
      exact ih (n / 10) _ (by omega)

theorem parseDigits_toDigitsCore (fuel : Nat) : ∀ (n : Nat) (ds : List Char), n < fuel →
    ∃ k, ∀ acc, parseDigits acc (Nat.toDigitsCore 10 fuel n ds)
      = parseDigits (acc * 10 ^ k + n) ds := by
  induction fuel with
  | zero => intro n ds h; omega
  | succ fuel ih =>
    intro n ds h
    simp only [Nat.toDigitsCore]
    split
    · rename_i h0
      refine ⟨1, fun acc => ?_⟩
      have hlt : n < 10 := by omega
      simp only [parseDigits, Nat.mod_eq_of_lt hlt, digitVal_digitChar n hlt, pow_one]
    · rename_i hne
      obtain ⟨k, hk⟩ := ih (n / 10) (Nat.digitChar (n % 10) :: ds) (by omega)
      refine ⟨k + 1, fun acc => ?_⟩
      rw [hk]
      simp only [parseDigits, digitVal_digitChar _ (Nat.mod_lt n (by omega : 10 > 0))]
      congr 1
      have := Nat.div_add_mod n 10
      rw [pow_succ]
      nlinarith [Nat.div_add_mod n 10]

theorem parseNat_toDigits (m : Nat) : parseNat (Nat.toDigits 10 m) = some m := by
  obtain ⟨c, rest, hc, d, hd⟩ := toDigitsCore_head (m + 1) m [] (by omega)
  obtain ⟨k, hk⟩ := parseDigits_toDigitsCore (m + 1) m [] (by omega)
  have h0 := hk 0
  simp only [parseDigits, zero_mul, zero_add] at h0
  simp only [Nat.toDigits]
  rw [hc] at h0 ⊢
  simp only [parseNat, hd, h0]

theorem toDigitsCore_append (fuel : Nat) : ∀ (n : Nat) (ds tail : List Char),
    Nat.toDigitsCore 10 fuel n ds ++ tail = Nat.toDigitsCore 10 fuel n (ds ++ tail) := by
  induction fuel with
  | zero => intro n ds tail; simp [Nat.toDigitsCore]
  | succ fuel ih =>
    intro n ds tail
    simp only [Nat.toDigitsCore]
    split
    · simp
    · rw [ih]; simp

theorem parseNat_toDigits_append (m : Nat) (c : Char) (rest : List Char)
    (hc : digitVal c = none) : parseNat (Nat.toDigits 10 m ++ c :: rest) = some m := by
  have happ : Nat.toDigits 10 m ++ c :: rest = Nat.toDigitsCore 10 (m + 1) m (c :: rest) := by
    simp only [Nat.toDigits]
    rw [toDigitsCore_append]
    simp
  obtain ⟨d, tl, hd, v, hv⟩ := toDigitsCore_head (m + 1) m (c :: rest) (by omega)
  obtain ⟨k, hk⟩ := parseDigits_toDigitsCore (m + 1) m (c :: rest) (by omega)
  have h0 := hk 0
  simp only [parseDigits, hc, zero_mul, zero_add] at h0
  rw [happ]
  rw [hd] at h0 ⊢
  simp only [parseNat, hv, h0]

theorem digitVal_cases (c : Char) (d : Nat) (h : digitVal c = some d) :
    c = '0' ∨ c = '1' ∨ c = '2' ∨ c = '3' ∨ c = '4' ∨ c = '5' ∨ c = '6' ∨ c = '7' ∨
      c = '8' ∨ c = '9' := by
  by_cases h0 : c = '0'
  · exact Or.inl h0
  by_cases h1 : c = '1'
  · exact Or.inr (Or.inl h1)
  by_cases h2 : c = '2'
  · exact Or.inr (Or.inr (Or.inl h2))
  by_cases h3 : c = '3'
  · exact Or.inr (Or.inr (Or.inr (Or.inl h3)))
  by_cases h4 : c = '4'
  · exact Or.inr (Or.inr (Or.inr (Or.inr (Or.inl h4))))
  by_cases h5 : c = '5'
  · exact Or.inr (Or.inr (Or.inr (Or.inr (Or.inr (Or.inl h5)))))
  by_cases h6 : c = '6'
  · exact Or.inr (Or.inr (Or.inr (Or.inr (Or.inr (Or.inr (Or.inl h6))))))
  by_cases h7 : c = '7'
  · exact Or.inr (Or.inr (Or.inr (Or.inr (Or.inr (Or.inr (Or.inr (Or.inl h7)))))))
  by_cases h8 : c = '8'
  · exact Or.inr (Or.inr (Or.inr (Or.inr (Or.inr (Or.inr (Or.inr (Or.inr (Or.inl h8))))))))
  by_cases h9 : c = '9'
  · exact Or.inr (Or.inr (Or.inr (Or.inr (Or.inr (Or.inr (Or.inr (Or.inr (Or.inr h9))))))))
  exfalso
  simp only [digitVal, h0, h1, h2, h3, h4, h5, h6, h7, h8, h9, if_false] at h
  cases h

theorem digit_facts (c : Char) (d : Nat) (h : digitVal c = some d) :
    isWhiteSpace c = false ∧ c ≠ '-' ∧ c ≠ '+' ∧ c ≠ 'x' ∧ c ≠ 'X' := by
  rcases digitVal_cases c d h with rfl | rfl | rfl | rfl | rfl | rfl | rfl | rfl | rfl | rfl <;>
    decide

theorem toDigitsCore_all (fuel : Nat) : ∀ (n : Nat) (ds : List Char) (c : Char),
    c ∈ Nat.toDigitsCore 10 fuel n ds → c ∈ ds ∨ ∃ d, digitVal c = some d := by
  induction fuel with
  | zero => intro n ds c h; exact Or.inl (by simpa [Nat.toDigitsCore] using h)
  | succ fuel ih =>
    intro n ds c h
    simp only [Nat.toDigitsCore] at h
    split at h
    · rcases List.mem_cons.1 h with rfl | h1
      · exact Or.inr ⟨_, digitVal_digitChar _ (Nat.mod_lt _ (by omega))⟩
      · exact Or.inl h1
    · rcases ih _ _ c h with h1 | h1
      · rcases List.mem_cons.1 h1 with rfl | h2
        · exact Or.inr ⟨_, digitVal_digitChar _ (Nat.mod_lt _ (by omega))⟩
        · exact Or.inl h2
      · exact Or.inr h1

theorem parseMagnitude_eq_parseNat (cs : List Char)
    (h : ∀ c rest, cs = '0' :: c :: rest → c ≠ 'x' ∧ c ≠ 'X') :
    parseMagnitude cs = parseNat cs := by
  unfold parseMagnitude
  split
  · rename_i rest
    exact absurd rfl (h 'x' rest rfl).1
  · rename_i rest
    exact absurd rfl (h 'X' rest rfl).2
  · rfl

theorem parseMagnitude_toDigits (m : Nat) (tail : List Char)
    (ht : ∀ c rest, tail = c :: rest → c = '_') :
    parseMagnitude (Nat.toDigits 10 m ++ tail) = some m := by
  have hnat : parseNat (Nat.toDigits 10 m ++ tail) = some m := by
    cases tail with
    | nil => rw [List.append_nil]; exact parseNat_toDigits m
    | cons c rest =>
      have hc := ht c rest rfl
      subst hc
      exact parseNat_toDigits_append m '_' rest (by decide)
  rw [parseMagnitude_eq_parseNat _ ?_, hnat]
  intro c rest hcs
  obtain ⟨d1, ds, hd, _⟩ := toDigitsCore_head (m + 1) m [] (by omega)
  have hall : ∀ x ∈ Nat.toDigits 10 m, ∃ d, digitVal x = some d := by
    intro x hx
    rcases toDigitsCore_all (m + 1) m [] x hx with h1 | h1
    · cases h1
    · exact h1
  have hd' : Nat.toDigits 10 m = d1 :: ds := hd
  rw [hd'] at hcs hall
  cases ds with
  | nil =>
    simp only [List.cons_append, List.nil_append, List.cons.injEq] at hcs
    have := ht c rest hcs.2
    subst this
    exact ⟨by decide, by decide⟩
  | cons d2 ds2 =>
    simp only [List.cons_append, List.cons.injEq] at hcs
    obtain ⟨v, hv⟩ := hall d2 (by simp)
    have := digit_facts d2 v hv
    rw [← hcs.2.1]
    exact ⟨this.2.2.2.1, this.2.2.2.2⟩

theorem parseInt_of_digits (s : String) (m : Nat) (tail : List Char)
    (hs : s.data = Nat.toDigits 10 m ++ tail)
    (ht : ∀ c rest, tail = c :: rest → c = '_') : parseInt s = some (m : Int) := by
  obtain ⟨d1, ds, hd, v, hv⟩ := toDigitsCore_head (m + 1) m [] (by omega)
  have hd' : Nat.toDigits 10 m = d1 :: ds := hd
  have hf := digit_facts d1 v hv
  have hmag := parseMagnitude_toDigits m tail ht
  have hdrop : s.data.dropWhile isWhiteSpace = Nat.toDigits 10 m ++ tail := by
    rw [hs, hd']
    simp [List.dropWhile, hf.1]
  unfold parseInt
  rw [hdrop]
  rw [hd'] at hmag ⊢
  simp only [List.cons_append] at hmag ⊢
  split
  · rename_i heq; cases heq; exact absurd rfl hf.2.1
  · rename_i heq; cases heq; exact absurd rfl hf.2.2.1
  · simp [hmag]

theorem parseInt_of_neg_digits (s : String) (m : Nat) (tail : List Char)
    (hs : s.data = '-' :: (Nat.toDigits 10 (m + 1) ++ tail))
    (ht : ∀ c rest, tail = c :: rest → c = '_') : parseInt s = some (Int.negSucc m) := by
  have hmag := parseMagnitude_toDigits (m + 1) tail ht
  have hdrop : s.data.dropWhile isWhiteSpace = '-' :: (Nat.toDigits 10 (m + 1) ++ tail) := by
    rw [hs]
    have : isWhiteSpace '-' = false := by decide
    simp [List.dropWhile, this]
  unfold parseInt
  rw [hdrop]
  simp only [hmag, Option.map_some']
  rfl

/-- Parsing the decimal rendering of an integer gives the integer back. -/
theorem parseInt_numToString (n : Int) : parseInt (numToString n) = some n := by
  cases n with
  | ofNat m =>
    exact parseInt_of_digits _ m [] (by simp [numToString]) (by intro c rest h; cases h)
  | negSucc m =>
    exact parseInt_of_neg_digits _ m [] (by simp [numToString]) (by intro c rest h; cases h)

theorem parseInt_timerId (t : Int) (x : String) :
    parseInt (numToString t ++ "_" ++ x) = some t := by
  cases t with
  | ofNat m =>
    exact parseInt_of_digits _ m ('_' :: x.data) (by simp [numToString, String.data_append])
      (by intro c rest h; cases h; rfl)
  | negSucc m =>
    exact parseInt_of_neg_digits _ m ('_' :: x.data)
      (by simp [numToString, String.data_append]) (by intro c rest h; cases h; rfl)

theorem alarmName_data (timerId : String) :
    (alarmName timerId).data = "timer_".data ++ timerId.data := by
  simp [alarmName, String.data_append]

theorem alarmName_injective {a b : String} (h : alarmName a = alarmName b) : a = b := by
  have h1 := congrArg String.data h
  rw [alarmName_data, alarmName_data] at h1
  exact String.ext (List.append_cancel_left h1)

theorem startsWith_alarmName (timerId : String) :
    startsWith (alarmName timerId) "timer_" = true := by
  simp [startsWith, alarmName_data]

theorem replace_alarmName (timerId : String) :
    replace (alarmName timerId) "timer_" "" = timerId := by
  have h : replaceFirst "timer_".data "".data ("timer_".data ++ timerId.data)
      = timerId.data := by
    show replaceFirst ['t', 'i', 'm', 'e', 'r', '_'] []
      ('t' :: ('i' :: ('m' :: ('e' :: ('r' :: ('_' :: timerId.data)))))) = timerId.data
    simp [replaceFirst]
  simp only [replace, alarmName_data, h]

/-! ## Facts about the map operations -/

namespace TimerMap

theorem has_iff (m : TimerMap) (k : String) : m.has k = true ↔ k ∈ m.keys := by
  simp [has, keys]

theorem mem_delete (m : TimerMap) (k : String) (e : String × Timer) :
    e ∈ m.delete k ↔ e ∈ m ∧ e.1 ≠ k := by
  simp [delete]

theorem has_delete_self (m : TimerMap) (k : String) : (m.delete k).has k = false := by
  simp [has, delete]

theorem get_eq_none_of_has_false (m : TimerMap) (k : String) (h : m.has k = false) :
    m.get k = none := by
  simp only [has, List.any_eq_false] at h
  simp only [get, Option.map_eq_none', List.find?_eq_none]
  exact h

theorem get_isSome_of_has (m : TimerMap) (k : String) (h : m.has k = true) :
    ∃ v, m.get k = some v := by
  induction m with
  | nil => simp [has] at h
  | cons e m ih =>
    by_cases hk : e.1 = k
    · exact ⟨e.2, by simp [get, hk]⟩
    · have h1 : has m k = true := by simpa [has, hk] using h
      obtain ⟨v, hv⟩ := ih h1
      exact ⟨v, by simpa [get, hk] using hv⟩

theorem get_mem (m : TimerMap) (k : String) (v : Timer) (h : m.get k = some v) :
    (k, v) ∈ m := by
  simp only [get, Option.map_eq_some'] at h
  obtain ⟨e, he, rfl⟩ := h
  have h1 := List.find?_some he
  have h2 := List.mem_of_find?_eq_some he
  have h3 : e.1 = k := by simpa using h1
  rw [← h3]; exact h2

theorem get_map_replace (m : TimerMap) (k : String) (v : Timer) (h : m.has k = true) :
    get (m.map (fun e => if e.1 == k then (k, v) else e)) k = some v := by
  induction m with
  | nil => simp [has] at h
  | cons e m ih =>
    by_cases hk : e.1 = k
    · simp [get, hk]
    · have h1 : has m k = true := by simpa [has, hk] using h
      have := ih h1
      simpa [get, hk] using this

theorem get_set_self (m : TimerMap) (k : String) (v : Timer) : (m.set k v).get k = some v := by
  unfold set
  by_cases h : m.has k = true
  · rw [if_pos h]; exact get_map_replace m k v h
  · rw [if_neg h]
    have h0 : m.has k = false := by simpa using h
    have hn : ∀ e ∈ m, ¬ e.1 = k := by simpa [has] using h0
    simp only [get, List.find?_append]
    rw [List.find?_eq_none.2 (by simpa using hn)]
    simp

theorem mem_set_of_ne (m : TimerMap) (k : String) (v : Timer) (e : String × Timer)
    (hne : e.1 ≠ k) : e ∈ m.set k v ↔ e ∈ m := by
  unfold set
  split
  · simp only [List.mem_map]
    constructor
    · rintro ⟨a, ha, hae⟩
      by_cases hk : a.1 = k
      · simp [hk] at hae; rw [← hae] at hne; exact absurd rfl hne
      · simp [hk] at hae; rw [← hae]; exact ha
    · intro he
      exact ⟨e, he, by simp [hne]⟩
  · simp only [List.mem_append, List.mem_singleton]
    constructor
    · rintro (h | h)
      · exact h
      · rw [h] at hne; exact absurd rfl hne
    · intro h; exact Or.inl h

theorem mem_set_self (m : TimerMap) (k : String) (v : Timer) (e : String × Timer)
    (he : e ∈ m.set k v) (hk : e.1 = k) : e = (k, v) := by
  unfold set at he
  split at he
  · simp only [List.mem_map] at he
    obtain ⟨a, ha, hae⟩ := he
    by_cases hak : a.1 = k
    · simp [hak] at hae; exact hae.symm
    · simp [hak] at hae; rw [hae] at hak; exact absurd hk hak
  · rename_i hh
    simp only [List.mem_append, List.mem_singleton] at he
    rcases he with h | h
    · exfalso
      apply hh
      rw [has_iff]
      exact List.mem_map.2 ⟨e, h, hk⟩
    · exact h

theorem keys_set_of_has (m : TimerMap) (k : String) (v : Timer) (h : m.has k = true) :
    (m.set k v).keys = m.keys := by
  unfold set
  rw [if_pos h]
  simp only [keys, List.map_map]
  apply List.map_congr_left
  intro e _
  by_cases hk : e.1 = k <;> simp [hk]

end TimerMap

/-! ## Unfolding `updateTimer` -/

theorem updateTimer_of_has (s : State) (timerId : String) (newEndTime : Int)
    (newLabel : Option String) (h : s.timers.has timerId = true) :
    ∃ old, s.timers.get timerId = some old ∧
      updateTimer s timerId newEndTime newLabel
        = (some (updatedTimer old newEndTime newLabel),
           { timers := s.timers.set timerId (updatedTimer old newEndTime newLabel)
             alarms := alarmsCreate (alarmsClear s.alarms (alarmName timerId))
               (alarmName timerId) newEndTime }) := by
  obtain ⟨old, hold⟩ := TimerMap.get_isSome_of_has _ _ h
  refine ⟨old, hold, ?_⟩
  simp [updateTimer, h, hold, createAlarm, updatedTimer]

theorem updateTimer_of_not_has (s : State) (timerId : String) (newEndTime : Int)
    (newLabel : Option String) (h : s.timers.has timerId = false) :
    updateTimer s timerId newEndTime newLabel = (none, s) := by
  simp [updateTimer, h]

theorem filter_name_alarmsCreate_self (as : List Alarm) (n : String) (t : Int) :
    (alarmsCreate as n t).filter (fun a => a.name == n) = [⟨n, t⟩] := by
  simp [alarmsCreate, List.filter_append, List.filter_filter]

theorem filter_name_alarmsCreate_other (as : List Alarm) (n k : String) (t : Int)
    (hk : k ≠ n) :
    (alarmsCreate as n t).filter (fun a => a.name == k) = as.filter (fun a => a.name == k) := by
  have hnk : ¬ n = k := fun h => hk h.symm
  simp only [alarmsCreate, List.filter_append, List.filter_filter]
  simp only [List.filter_cons, List.filter_nil, beq_iff_eq, hnk, if_false, List.append_nil]
  congr 1
  funext a
  by_cases ha : a.name = k
  · have : ¬ a.name = n := fun h => hk (ha ▸ h)
    simp [ha, this, hk]
  · simp [ha]

theorem filter_name_alarmsClear_other (as : List Alarm) (n k : String) (hk : k ≠ n) :
    (alarmsClear as n).filter (fun a => a.name == k) = as.filter (fun a => a.name == k) := by
  simp only [alarmsClear, List.filter_filter]
  congr 1
  funext a
  by_cases ha : a.name = k
  · simp [ha, hk]
  · simp [ha]

/-! ## Unfolding `restoreAlarms` -/

theorem pruneLoop_eq_filter (valid : List String) :
    ∀ (l : List (String × Timer)) (m : TimerMap),
      pruneLoop valid l m
        = m.filter (fun e => !(TimerMap.keys l).contains e.1 || valid.contains e.1) := by
  intro l
  induction l with
  | nil => intro m; simp [pruneLoop, TimerMap.keys]
  | cons x rest ih =>
    intro m
    obtain ⟨k, t⟩ := x
    have hkeys : ∀ e : String × Timer, (TimerMap.keys ((k, t) :: rest)).contains e.1
        = (e.1 == k || (TimerMap.keys rest).contains e.1) := by
      intro e
      simp [TimerMap.keys, List.contains, List.elem_cons]
    by_cases hv : valid.contains k = true
    · simp only [pruneLoop, hv, Bool.not_true, Bool.false_eq_true, if_false]
      rw [ih]
      apply List.filter_congr
      intro e _
      rw [hkeys]
      by_cases hk : e.1 = k
      · have hb : (e.1 == k) = true := by simpa using hk
        rw [hb, hk, hv]; simp
      · have hb : (e.1 == k) = false := by simpa using hk
        rw [hb]; simp
    · have hv0 : valid.contains k = false := by simpa using hv
      simp only [pruneLoop, hv0, Bool.not_false, if_true]
      rw [ih]
      simp only [TimerMap.delete, List.filter_filter]
      apply List.filter_congr
      intro e _
      rw [hkeys]
      by_cases hk : e.1 = k
      · have hb : (e.1 == k) = true := by simpa using hk
        rw [hb, hk, hv0]; simp
      · have hb : (e.1 == k) = false := by simpa using hk
        rw [hb]; simp

theorem eq_of_key_eq {m : TimerMap} (h : m.keys.Nodup) {e e' : String × Timer}
    (he : e ∈ m) (he' : e' ∈ m) (hk : e.1 = e'.1) : e = e' :=
  List.inj_on_of_nodup_map h he he' hk

theorem filter_key_eq_singleton {m : TimerMap} (h : m.keys.Nodup) {e : String × Timer}
    (he : e ∈ m) : m.filter (fun x => x.1 == e.1) = [e] := by
  induction m with
  | nil => cases he
  | cons x rest ih =>
    simp only [TimerMap.keys, List.map_cons, List.nodup_cons] at h
    obtain ⟨hx, hrest⟩ := h
    rcases List.mem_cons.1 he with rfl | hin
    · have hnone : rest.filter (fun x => x.1 == e.1) = [] := by
        rw [List.filter_eq_nil_iff]
        intro y hy hye
        apply hx
        have : y.1 = e.1 := by simpa using hye
        rw [← this]
        exact List.mem_map_of_mem _ hy
      simp [List.filter_cons, hnone]
    · have hne : ¬ x.1 = e.1 := by
        intro hxe
        apply hx
        rw [hxe]
        exact List.mem_map_of_mem _ hin
      simp only [List.filter_cons, beq_iff_eq, hne, if_false]
      exact ih hrest hin

theorem restoreLoop_spec (now : Nat) (snapshot : List Alarm) :
    ∀ (l : List (String × Timer)) (valid : List String) (st : State),
      (TimerMap.keys l).Nodup →
      (∀ e ∈ l, ∀ a ∈ st.alarms,
        snapshot.any (fun alarm => alarm.name == alarmName e.1) = false →
          a.name ≠ alarmName e.1) →
      restoreLoop now snapshot l (valid, st)
        = (valid ++ TimerMap.keys (l.filter (fun e => decide (e.2.endTime > (now : Int)))),
           { timers := st.timers
             alarms := st.alarms ++
               (l.filter (fun e => decide (e.2.endTime > (now : Int)) &&
                   !(snapshot.any (fun alarm => alarm.name == alarmName e.1)))).map
                 (fun e => ⟨alarmName e.1, e.2.endTime⟩) }) := by
  intro l
  induction l with
  | nil => intro valid st _ _; simp [restoreLoop, TimerMap.keys]
  | cons x rest ih =>
    intro valid st hnd hfresh
    obtain ⟨k, t⟩ := x
    simp only [TimerMap.keys, List.map_cons, List.nodup_cons] at hnd
    obtain ⟨hk, hrest⟩ := hnd
    have hfresh' : ∀ e ∈ rest, ∀ a ∈ st.alarms,
        snapshot.any (fun alarm => alarm.name == alarmName e.1) = false →
          a.name ≠ alarmName e.1 :=
      fun e he a ha => hfresh e (List.mem_cons_of_mem _ he) a ha
    by_cases hfut : t.endTime > (now : Int)
    · by_cases hex : snapshot.any (fun alarm => alarm.name == alarmName k) = true
      · simp only [restoreLoop, hfut, if_true, hex, Bool.not_true, Bool.false_eq_true,
          if_false]
        rw [ih _ _ hrest hfresh']
        simp [TimerMap.keys, List.filter_cons, hfut, hex]
      · have hex0 : snapshot.any (fun alarm => alarm.name == alarmName k) = false := by
          simpa using hex
        have hsame : alarmsCreate st.alarms (alarmName k) t.endTime
            = st.alarms ++ [⟨alarmName k, t.endTime⟩] := by
          simp only [alarmsCreate]
          congr 1
          rw [List.filter_eq_self]
          intro a ha
          have := hfresh (k, t) (List.mem_cons_self _ _) a ha hex0
          simpa using this
        simp only [restoreLoop, hfut, if_true, hex0, Bool.not_false, createAlarm, hsame]
        rw [ih _ _ hrest]
        · simp [TimerMap.keys, List.filter_cons, hfut, hex0]
        · intro e he a ha hsn
          rcases List.mem_append.1 ha with h1 | h1
          · exact hfresh' e he a h1 hsn
          · simp only [List.mem_singleton] at h1
            rw [h1]
            intro hname
            apply hk
            rw [alarmName_injective hname]
            exact List.mem_map_of_mem _ he
    · simp only [restoreLoop, hfut, if_false]
      rw [ih _ _ hrest hfresh']
      simp [TimerMap.keys, List.filter_cons, hfut]

theorem restoreAlarms_eq (now : Nat) (s : State) (h : s.timers.keys.Nodup) :
    restoreAlarms now s
      = { timers := s.timers.filter (fun e => decide (e.2.endTime > (now : Int)))
          alarms := s.alarms ++
            (s.timers.filter (fun e => decide (e.2.endTime > (now : Int)) &&
                !(s.alarms.any (fun alarm => alarm.name == alarmName e.1)))).map
              (fun e => ⟨alarmName e.1, e.2.endTime⟩) } := by
  have hloop := restoreLoop_spec now s.alarms s.timers [] s h (by
    intro e _ a ha hsn
    intro hname
    have : s.alarms.any (fun alarm => alarm.name == alarmName e.1) = true := by
      rw [List.any_eq_true]
      exact ⟨a, ha, by simpa using hname⟩
    rw [this] at hsn
    cases hsn)
  simp only [restoreAlarms, hloop, List.nil_append, pruneLoop_eq_filter]
  congr 1
  apply List.filter_congr
  intro e he
  have hmem : (TimerMap.keys s.timers).contains e.1 = true :=
    List.elem_eq_true_of_mem (List.mem_map_of_mem _ he)
  rw [hmem, Bool.not_true, Bool.false_or, Bool.eq_iff_iff, decide_eq_true_eq]
  constructor
  · intro hc
    have hc' := List.mem_of_elem_eq_true hc
    simp only [TimerMap.keys, List.mem_map] at hc'
    obtain ⟨e', he', hk⟩ := hc'
    obtain ⟨hin, hf⟩ := List.mem_filter.1 he'
    have := eq_of_key_eq h hin he hk
    subst this
    simpa using hf
  · intro hfut
    exact List.elem_eq_true_of_mem
      (List.mem_map_of_mem _ (List.mem_filter.2 ⟨he, by simpa using hfut⟩))

theorem restoreAlarms_filter_name (now : Nat) (s : State) (h : s.timers.keys.Nodup)
    (e : String × Timer)
    (he : e ∈ s.timers.filter (fun e => decide (e.2.endTime > (now : Int)))) :
    (restoreAlarms now s).alarms.filter (fun a => a.name == alarmName e.1)
      = if s.alarms.any (fun a => a.name == alarmName e.1)
        then s.alarms.filter (fun a => a.name == alarmName e.1)
        else [⟨alarmName e.1, e.2.endTime⟩] := by
  obtain ⟨hin, hfut⟩ := List.mem_filter.1 he
  rw [restoreAlarms_eq now s h]
  simp only [List.filter_append, List.filter_map]
  have hcomp : ((fun a : Alarm => a.name == alarmName e.1) ∘
      fun x : String × Timer => (⟨alarmName x.1, x.2.endTime⟩ : Alarm))
      = fun x => x.1 == e.1 := by
    funext x
    by_cases hx : x.1 = e.1
    · simp [hx]
    · have : ¬ alarmName x.1 = alarmName e.1 := fun hn => hx (alarmName_injective hn)
      simp [hx, this]
  rw [hcomp, List.filter_filter]
  have hswap : s.timers.filter (fun a => (a.1 == e.1) && (decide (a.2.endTime > (now : Int)) &&
      !(s.alarms.any (fun alarm => alarm.name == alarmName a.1))))
      = (s.timers.filter (fun x => x.1 == e.1)).filter
          (fun a => decide (a.2.endTime > (now : Int)) &&
            !(s.alarms.any (fun alarm => alarm.name == alarmName a.1))) := by
    rw [List.filter_filter]
    apply List.filter_congr
    intro x _
    exact Bool.and_comm _ _
  rw [hswap, filter_key_eq_singleton h hin]
  by_cases hany : s.alarms.any (fun a => a.name == alarmName e.1) = true
  · simp [List.filter_cons, hany]
  · have hany0 : s.alarms.any (fun a => a.name == alarmName e.1) = false := by
      simpa using hany
    have hnone : s.alarms.filter (fun a => a.name == alarmName e.1) = [] := by
      rw [List.filter_eq_nil_iff]
      intro a ha
      have := List.any_eq_false.1 hany0 a ha
      simpa using this
    rw [if_neg hany, hnone]
    simp only [List.filter_cons, hfut, hany0, Bool.not_false, Bool.and_self, if_true,
      List.filter_nil, List.map_cons, List.map_nil, List.nil_append]

/-! ## Unfolding `handleAlarm` -/

theorem handleAlarm_of_foreign_name (tabsRemove : Int → Except String Unit) (s : State)
    (name : String) (h : startsWith name "timer_" = false) :
    handleAlarm tabsRemove s name = .ok ⟨s, []⟩ := by
  simp [handleAlarm, h]

theorem handleAlarm_of_absent (tabsRemove : Int → Except String Unit) (s : State)
    (name : String) (h : s.timers.get (replace name "timer_" "") = none) :
    handleAlarm tabsRemove s name = .ok ⟨s, []⟩ := by
  unfold handleAlarm
  split
  · rfl
  · simp only [h]

theorem handleAlarm_of_present (tabsRemove : Int → Except String Unit) (s : State)
    (name : String) (timer : Timer) (hp : startsWith name "timer_" = true)
    (h : s.timers.get (replace name "timer_" "") = some timer) :
    handleAlarm tabsRemove s name
      = .ok ⟨{ timers := s.timers.delete (replace name "timer_" ""), alarms := s.alarms },
          [timer.tabId]⟩ := by
  unfold handleAlarm
  simp only [hp, Bool.not_true, Bool.false_eq_true, if_false, h]
  cases tabsRemove timer.tabId <;> rfl

/-! ## Preservation of `AlarmsInSync` -/

theorem mem_alarmsClear (as : List Alarm) (n : String) (a : Alarm) :
    a ∈ alarmsClear as n ↔ a ∈ as ∧ a.name ≠ n := by
  simp [alarmsClear]

theorem mem_alarmsCreate (as : List Alarm) (n : String) (t : Int) (a : Alarm) :
    a ∈ alarmsCreate as n t ↔ (a ∈ as ∧ a.name ≠ n) ∨ a = ⟨n, t⟩ := by
  simp [alarmsCreate]

theorem sync_of_subset_clear {m m' : TimerMap} {as : List Alarm} {n : String}
    (h : AlarmsInSync ⟨m, as⟩) (hsub : ∀ e ∈ m', e ∈ m ∧ alarmName e.1 ≠ n) :
    AlarmsInSync ⟨m', alarmsClear as n⟩ := by
  intro e he
  obtain ⟨hin, hne⟩ := hsub e he
  obtain ⟨h1, h2⟩ := h e hin
  refine ⟨(mem_alarmsClear _ _ _).2 ⟨h1, hne⟩, ?_⟩
  intro a ha
  exact h2 a ((mem_alarmsClear _ _ _).1 ha).1

theorem sync_set_create {m : TimerMap} {as : List Alarm} (k : String) (v : Timer)
    (as' : List Alarm) (h : AlarmsInSync ⟨m, as⟩)
    (has' : ∀ a, a.name ≠ alarmName k → (a ∈ as' ↔ a ∈ as)) :
    AlarmsInSync ⟨m.set k v, alarmsCreate as' (alarmName k) v.endTime⟩ := by
  intro e he
  by_cases hk : e.1 = k
  · have hev := TimerMap.mem_set_self m k v e he hk
    subst hev
    refine ⟨(mem_alarmsCreate _ _ _ _).2 (Or.inr rfl), ?_⟩
    intro a ha hn
    rcases (mem_alarmsCreate _ _ _ _).1 ha with ⟨_, hne⟩ | rfl
    · exact absurd hn hne
    · rfl
  · have hin : e ∈ m := (TimerMap.mem_set_of_ne m k v e hk).1 he
    obtain ⟨h1, h2⟩ := h e hin
    have hne : alarmName e.1 ≠ alarmName k := fun hn => hk (alarmName_injective hn)
    refine ⟨(mem_alarmsCreate _ _ _ _).2 (Or.inl ⟨(has' _ hne).2 h1, hne⟩), ?_⟩
    intro a ha hn
    rcases (mem_alarmsCreate _ _ _ _).1 ha with ⟨hin', _⟩ | rfl
    · exact h2 a ((has' a (by rw [hn]; exact hne)).1 hin') hn
    · exact absurd hn (fun hn' => hne hn'.symm)

theorem urlLoop_origin (tid : Option Int) (newUrl : String) :
    ∀ (l : List (String × Timer)) (m : TimerMap) (e' : String × Timer),
      e' ∈ urlLoop tid newUrl l m →
      ∃ e, (e ∈ m ∨ e ∈ l) ∧ e.1 = e'.1 ∧ e.2.endTime = e'.2.endTime := by
  intro l
  induction l with
  | nil => intro m e' he'; exact ⟨e', Or.inl he', rfl, rfl⟩
  | cons x rest ih =>
    intro m e' he'
    obtain ⟨k, t⟩ := x
    by_cases hm : some t.tabId = tid
    · simp only [urlLoop, hm, if_true] at he'
      obtain ⟨e, hor, hk, hend⟩ := ih _ e' he'
      rcases hor with hin | hin
      · by_cases hek : e.1 = k
        · have := TimerMap.mem_set_self m k _ e hin hek
          subst this
          exact ⟨(k, t), Or.inr (List.mem_cons_self _ _), hk, hend⟩
        · exact ⟨e, Or.inl ((TimerMap.mem_set_of_ne m k _ e hek).1 hin), hk, hend⟩
      · exact ⟨e, Or.inr (List.mem_cons_of_mem _ hin), hk, hend⟩
    · simp only [urlLoop, hm, if_false] at he'
      obtain ⟨e, hor, hk, hend⟩ := ih _ e' he'
      rcases hor with hin | hin
      · exact ⟨e, Or.inl hin, hk, hend⟩
      · exact ⟨e, Or.inr (List.mem_cons_of_mem _ hin), hk, hend⟩

theorem sync_updateTimerUrl (s : State) (tabId newUrl : String) (h : AlarmsInSync s) :
    AlarmsInSync (updateTimerUrl s tabId newUrl) := by
  intro e' he'
  obtain ⟨e, hor, hk, hend⟩ := urlLoop_origin _ _ _ _ e' he'
  have hin : e ∈ s.timers := by rcases hor with h1 | h1 <;> exact h1
  have := h e hin
  rw [hk, hend] at this
  exact this

theorem sync_removeTimer (s : State) (timerId : String) (h : AlarmsInSync s) :
    AlarmsInSync (removeTimer s timerId).2 := by
  unfold removeTimer
  split
  · apply sync_of_subset_clear h
    intro e he
    obtain ⟨hin, hne⟩ := (TimerMap.mem_delete _ _ _).1 he
    exact ⟨hin, fun hn => hne (alarmName_injective hn)⟩
  · exact h

theorem sync_createTimer (tabsGet : Int → Option Tab) (nowId nowCreated : Nat) (s : State)
    (tabId endTime : Int) (type label : Option String) (h : AlarmsInSync s) :
    AlarmsInSync (createTimer tabsGet nowId nowCreated s tabId endTime type label).2 := by
  unfold createTimer
  simp only [parseInt_numToString]
  cases tabsGet tabId with
  | none => exact h
  | some tab => exact sync_set_create _ _ s.alarms h (fun _ _ => Iff.rfl)

theorem sync_updateTimer (s : State) (timerId : String) (newEndTime : Int)
    (newLabel : Option String) (h : AlarmsInSync s) :
    AlarmsInSync (updateTimer s timerId newEndTime newLabel).2 := by
  by_cases hh : s.timers.has timerId = true
  · obtain ⟨old, _, hu⟩ := updateTimer_of_has s timerId newEndTime newLabel hh
    rw [hu]
    have := sync_set_create timerId (updatedTimer old newEndTime newLabel)
      (alarmsClear s.alarms (alarmName timerId)) h (by
        intro a ha
        rw [mem_alarmsClear]
        exact ⟨fun hx => hx.1, fun hx => ⟨hx, ha⟩⟩)
    exact this
  · rw [updateTimer_of_not_has s timerId newEndTime newLabel (by simpa using hh)]
    exact h

theorem sync_alarmFired (tabsRemove : Int → Except String Unit) (s : State) (name : String)
    (h : AlarmsInSync s) : AlarmsInSync (step s (.alarmFired tabsRemove name)) := by
  simp only [step]
  by_cases hp : startsWith name "timer_" = true
  · cases hg : s.timers.get (replace name "timer_" "") with
    | none =>
      rw [handleAlarm_of_absent tabsRemove ⟨s.timers, alarmsClear s.alarms name⟩ name hg]
      apply sync_of_subset_clear h
      intro e he
      refine ⟨he, ?_⟩
      intro hn
      rw [← hn, replace_alarmName] at hg
      have hhas : s.timers.has e.1 = true := by
        rw [TimerMap.has_iff]; exact List.mem_map_of_mem _ he
      obtain ⟨v, hv⟩ := TimerMap.get_isSome_of_has _ _ hhas
      rw [hv] at hg
      cases hg
    | some timer =>
      rw [handleAlarm_of_present tabsRemove ⟨s.timers, alarmsClear s.alarms name⟩ name timer
        hp hg]
      apply sync_of_subset_clear h
      intro e he
      obtain ⟨hin, hne⟩ := (TimerMap.mem_delete _ _ _).1 he
      refine ⟨hin, ?_⟩
      intro hn
      apply hne
      rw [← hn, replace_alarmName]
  · have hp0 : startsWith name "timer_" = false := by simpa using hp
    rw [handleAlarm_of_foreign_name tabsRemove ⟨s.timers, alarmsClear s.alarms name⟩ name hp0]
    apply sync_of_subset_clear h
    intro e he
    refine ⟨he, ?_⟩
    intro hn
    rw [← hn, startsWith_alarmName] at hp0
    cases hp0

theorem sync_step (s : State) (ev : Event) (h : AlarmsInSync s) : AlarmsInSync (step s ev) := by
  cases ev with
  | message tabsGet now1 now2 req =>
    cases req with
    | createTimer tabId endTime type label => exact sync_createTimer _ _ _ _ _ _ _ _ h
    | removeTimer timerId => exact sync_removeTimer _ _ h
    | updateTimer timerId endTime label => exact sync_updateTimer _ _ _ _ h
    | getTimers => exact h
    | getTimersByTab tabId => exact h
    | getActiveTimersCount => exact h
    | other action => exact h
  | tabRemoved tabId => exact sync_removeTimer _ _ h
  | tabUpdated tabId url =>
    cases url with
    | none => exact h
    | some u =>
      simp only [step, onUpdated]
      split
      · exact h
      · exact sync_updateTimerUrl _ _ _ h
  | alarmFired tabsRemove name => exact sync_alarmFired _ _ _ h

theorem sync_run (events : List Event) : ∀ s : State, AlarmsInSync s →
    AlarmsInSync (run s events) := by
  induction events with
  | nil => intro s h; exact h
  | cons ev rest ih => intro s h; exact ih _ (sync_step s ev h)

theorem sync_restoreAlarms (now : Nat) (s : State) (hkeys : s.timers.keys.Nodup)
    (hpre : ∀ e ∈ s.timers, e.2.endTime > (now : Int) →
      ∀ a ∈ s.alarms, a.name = alarmName e.1 → a.scheduledTime = e.2.endTime) :
    AlarmsInSync (restoreAlarms now s) := by
  intro e he
  have heq := restoreAlarms_eq now s hkeys
  have he' : e ∈ s.timers.filter (fun e => decide (e.2.endTime > (now : Int))) := by
    rw [heq] at he; exact he
  obtain ⟨hin, hfut⟩ := List.mem_filter.1 he'
  have hfut' : e.2.endTime > (now : Int) := by simpa using hfut
  have hfil := restoreAlarms_filter_name now s hkeys e he'
  have hall : ∀ a ∈ (restoreAlarms now s).alarms, a.name = alarmName e.1 →
      a.scheduledTime = e.2.endTime := by
    intro a ha hn
    have hm : a ∈ (restoreAlarms now s).alarms.filter (fun a => a.name == alarmName e.1) :=
      List.mem_filter.2 ⟨ha, by simpa using hn⟩
    rw [hfil] at hm
    split at hm
    · exact hpre e hin hfut' a (List.mem_filter.1 hm).1 hn
    · rw [List.mem_singleton.1 hm]
  refine ⟨?_, hall⟩
  by_cases hany : s.alarms.any (fun a => a.name == alarmName e.1) = true
  · obtain ⟨a, ha, hn⟩ := List.any_eq_true.1 hany
    have hn' : a.name = alarmName e.1 := by simpa using hn
    have ht := hpre e hin hfut' a ha hn'
    have : a = ⟨alarmName e.1, e.2.endTime⟩ := by
      cases a; simp only [Alarm.mk.injEq]; exact ⟨hn', ht⟩
    rw [← this, heq]
    exact List.mem_append_left _ ha
  · rw [if_neg hany] at hfil
    have hm : (⟨alarmName e.1, e.2.endTime⟩ : Alarm)
        ∈ (restoreAlarms now s).alarms.filter (fun a => a.name == alarmName e.1) := by
      rw [hfil]; exact List.mem_singleton_self _
    exact (List.mem_filter.1 hm).1

/-! ## Unfolding `updateTimerUrl` -/

theorem map_replace_of_not_mem (l : TimerMap) (k : String) (v : Timer)
    (h : k ∉ l.keys) : l.map (fun e => if e.1 == k then (k, v) else e) = l := by
  induction l with
  | nil => rfl
  | cons x rest ih =>
    simp only [TimerMap.keys, List.map_cons, List.mem_cons, not_or] at h
    have hx : ¬ x.1 = k := fun hxk => h.1 hxk.symm
    simp only [List.map_cons, beq_iff_eq, hx, if_false]
    rw [show (List.map (fun e : String × Timer => if e.1 = k then (k, v) else e) rest) = rest
      from by simpa using ih h.2]

theorem set_middle (pre rest : TimerMap) (k : String) (t v : Timer)
    (hpre : k ∉ pre.keys) (hrest : k ∉ rest.keys) :
    TimerMap.set (pre ++ (k, t) :: rest) k v = pre ++ (k, v) :: rest := by
  have hhas : TimerMap.has (pre ++ (k, t) :: rest) k = true := by
    simp [TimerMap.has]
  unfold TimerMap.set
  rw [if_pos hhas, List.map_append, List.map_cons, map_replace_of_not_mem pre k v hpre,
    map_replace_of_not_mem rest k v hrest]
  simp

theorem urlLoop_eq_map (tid : Option Int) (newUrl : String) :
    ∀ (post pre : List (String × Timer)), (TimerMap.keys (pre ++ post)).Nodup →
      urlLoop tid newUrl post
          (pre.map (fun e => if some e.2.tabId = tid then (e.1, { e.2 with url := newUrl })
            else e) ++ post)
        = (pre ++ post).map
            (fun e => if some e.2.tabId = tid then (e.1, { e.2 with url := newUrl }) else e) := by
  intro post
  induction post with
  | nil => intro pre _; simp [urlLoop]
  | cons x rest ih =>
    intro pre hnd
    obtain ⟨k, t⟩ := x
    have hnd' : (TimerMap.keys ((pre ++ [(k, t)]) ++ rest)).Nodup := by
      simpa [List.append_assoc] using hnd
    have hsplit : TimerMap.keys (pre ++ (k, t) :: rest)
        = TimerMap.keys pre ++ k :: TimerMap.keys rest := by
      simp [TimerMap.keys]
    rw [hsplit] at hnd
    have hkpre : k ∉ TimerMap.keys pre := by
      intro hin
      have := (List.nodup_append.1 hnd).2.2
      exact this hin (List.mem_cons_self _ _)
    have hkrest : k ∉ TimerMap.keys rest :=
      (List.nodup_cons.1 (List.nodup_append.1 hnd).2.1).1
    have hkpre' : k ∉ TimerMap.keys (pre.map (fun e =>
        if some e.2.tabId = tid then (e.1, { e.2 with url := newUrl }) else e)) := by
      have hsame : TimerMap.keys (pre.map (fun e =>
          if some e.2.tabId = tid then (e.1, { e.2 with url := newUrl }) else e))
          = TimerMap.keys pre := by
        simp only [TimerMap.keys, List.map_map]
        apply List.map_congr_left
        intro e _
        by_cases he : some e.2.tabId = tid <;> simp [he]
      rw [hsame]; exact hkpre
    have hih := ih (pre ++ [(k, t)]) hnd'
    by_cases hm : some t.tabId = tid
    · simp only [urlLoop, hm, if_true]
      rw [set_middle _ _ _ _ _ hkpre' hkrest]
      simp only [List.map_append, List.map_cons, List.map_nil, hm, if_true,
        List.append_assoc, List.singleton_append] at hih ⊢
      exact hih
    · simp only [urlLoop, hm, if_false]
      simp only [List.map_append, List.map_cons, List.map_nil, hm, if_false,
        List.append_assoc, List.singleton_append] at hih ⊢
      exact hih

theorem alarmName_of_startsWith (name : String) (h : startsWith name "timer_" = true) :
    ∃ timerId, name = alarmName timerId := by
  simp only [startsWith, List.isPrefixOf_iff_prefix] at h
  obtain ⟨rest, hrest⟩ := h
  refine ⟨String.mk rest, ?_⟩
  apply String.ext
  rw [alarmName_data, ← hrest]

/-! ## Tab-close cascade -/

/-- C1, the code at three timers on tab 7 and one on tab 8: the `onRemoved` listener for
tab 7 looks up the key `"7"`, finds no timer under it, and leaves all four timers (and
their alarms) in place; the three timers of tab 7 are still listed for that tab. -/
theorem onRemoved_cascadeState_unchanged :
    onRemoved cascadeState 7 = cascadeState ∧
    (getTimersByTab (onRemoved cascadeState 7) 7).length = 3 := by
  decide

/-! ## Create -/

/-- C2: `createTimer` returns `null` and leaves the state as it was exactly when the tab
lookup fails; when the lookup succeeds it returns a timer carrying the given `endTime`
(whatever its value), stored under its id, with its alarm scheduled. -/
theorem createTimer_spec (tabsGet : Int → Option Tab) (nowId nowCreated : Nat) (s : State)
    (tabId endTime : Int) (type label : Option String) :
    (tabsGet tabId = none ∧
      createTimer tabsGet nowId nowCreated s tabId endTime type label = (none, s)) ∨
    (∃ tab timer, tabsGet tabId = some tab ∧
      createTimer tabsGet nowId nowCreated s tabId endTime type label
        = (some timer, { timers := s.timers.set timer.id timer
                         alarms := alarmsCreate s.alarms (alarmName timer.id) endTime }) ∧
      timer.endTime = endTime ∧ timer.tabId = tabId ∧
      timer.id = numToString tabId ++ "_" ++ numToString nowId ∧
      (s.timers.set timer.id timer).get timer.id = some timer) := by
  cases hg : tabsGet tabId with
  | none =>
    left
    simp [createTimer, parseInt_numToString, hg]
  | some tab =>
    right
    refine ⟨tab,
      { id := numToString tabId ++ "_" ++ numToString nowId
        tabId := tabId
        endTime := endTime
        type := type.getD "countdown"
        label := label.getD ""
        created := nowCreated
        url := tab.url
        title := tab.title }, rfl, ?_, rfl, rfl, rfl, TimerMap.get_set_self _ _ _⟩
    simp [createTimer, parseInt_numToString, hg, createAlarm]

/-- C3, the code on a `createTimer` command for a tab that does not exist: the response
carries `success: true` with `timer: null`, and the state is unchanged. -/
theorem onMessage_createTimer_unresolved :
    onMessage noTabs 1000 1000 emptyState
        (.createTimer 42 61000 (some "countdown") (some "Break"))
      = ({ success := true, timer := some none }, emptyState) := by
  decide

/-! ## Remove -/

/-- C4: for an id in the store the first `removeTimer` answers `true` (response
`success: true`), drops the records under that id and the alarm of that id and nothing
else, and a second `removeTimer` answers `false` (response `success: false`) and changes
nothing; for an id not in the store `removeTimer` answers `false` and changes nothing. -/
theorem removeTimer_idempotent (tabsGet : Int → Option Tab) (now1 now2 : Nat) (s : State)
    (timerId : String) :
    (s.timers.has timerId = true →
      (removeTimer s timerId).1 = true ∧
      (onMessage tabsGet now1 now2 s (.removeTimer timerId)).1 = { success := true } ∧
      (∀ e, e ∈ (removeTimer s timerId).2.timers ↔ e ∈ s.timers ∧ e.1 ≠ timerId) ∧
      (removeTimer s timerId).2.timers = s.timers.filter (fun e => decide (e.1 ≠ timerId)) ∧
      (∀ a, a ∈ (removeTimer s timerId).2.alarms ↔ a ∈ s.alarms ∧ a.name ≠ alarmName timerId) ∧
      removeTimer (removeTimer s timerId).2 timerId = (false, (removeTimer s timerId).2) ∧
      (onMessage tabsGet now1 now2 (removeTimer s timerId).2 (.removeTimer timerId))
        = ({ success := false }, (removeTimer s timerId).2)) ∧
    (s.timers.has timerId = false →
      removeTimer s timerId = (false, s) ∧
      (onMessage tabsGet now1 now2 s (.removeTimer timerId)) = ({ success := false }, s)) := by
  constructor
  · intro h
    have h2 : removeTimer s timerId
        = (true, { timers := s.timers.delete timerId
                   alarms := alarmsClear s.alarms (alarmName timerId) }) := by
      simp [removeTimer, h]
    have h3 : removeTimer (removeTimer s timerId).2 timerId
        = (false, (removeTimer s timerId).2) := by
      rw [h2]
      simp [removeTimer, TimerMap.has_delete_self]
    refine ⟨by rw [h2], ?_, ?_, ?_, ?_, h3, ?_⟩
    · simp [onMessage, h2]
    · intro e; rw [h2]; exact TimerMap.mem_delete _ _ _
    · rw [h2]
      show List.filter _ _ = List.filter _ _
      congr 1
      funext e
      by_cases hk : e.1 = timerId <;> simp [hk]
    · intro a; rw [h2]; simp [alarmsClear]
    · simp only [onMessage, h3]
  · intro h
    have h2 : removeTimer s timerId = (false, s) := by simp [removeTimer, h]
    exact ⟨h2, by simp only [onMessage, h2]⟩

/-- Witness of C4: removing `7_200` from the four-timer state, and removing an id that
is not there. -/
theorem removeTimer_idempotent_witness :
    ((removeTimer cascadeState "7_200").1 = true ∧
      removeTimer (removeTimer cascadeState "7_200").2 "7_200"
        = (false, (removeTimer cascadeState "7_200").2)) ∧
    removeTimer cascadeState "9_100" = (false, cascadeState) :=
  ⟨⟨((removeTimer_idempotent noTabs 0 0 cascadeState "7_200").1 (by decide)).1,
    ((removeTimer_idempotent noTabs 0 0 cascadeState "7_200").1 (by decide)).2.2.2.2.2.1⟩,
   ((removeTimer_idempotent noTabs 0 0 cascadeState "9_100").2 (by decide)).1⟩

/-! ## Update -/

/-- C5: after `updateTimer` on an id in the store, the alarm registry holds exactly one
alarm named `timer_<id>`, scheduled at `newEndTime`, and the alarms of every other name
are the ones that were there before, in the same order. -/
theorem updateTimer_reschedule (s : State) (timerId : String) (newEndTime : Int)
    (newLabel : Option String) (h : s.timers.has timerId = true) :
    ((updateTimer s timerId newEndTime newLabel).2.alarms.filter
        (fun a => a.name == alarmName timerId)) = [⟨alarmName timerId, newEndTime⟩] ∧
    (∀ n, n ≠ alarmName timerId →
      (updateTimer s timerId newEndTime newLabel).2.alarms.filter (fun a => a.name == n)
        = s.alarms.filter (fun a => a.name == n)) ∧
    (updateTimer s timerId newEndTime newLabel).2.alarms.filter
        (fun a => !(a.name == alarmName timerId))
      = s.alarms.filter (fun a => !(a.name == alarmName timerId)) := by
  obtain ⟨old, _, hu⟩ := updateTimer_of_has s timerId newEndTime newLabel h
  rw [hu]
  refine ⟨filter_name_alarmsCreate_self _ _ _, ?_, ?_⟩
  · intro n hn
    show (alarmsCreate (alarmsClear s.alarms (alarmName timerId)) (alarmName timerId)
      newEndTime).filter (fun a => a.name == n) = _
    rw [filter_name_alarmsCreate_other _ _ _ _ hn, filter_name_alarmsClear_other _ _ _ hn]
  · simp [alarmsCreate, alarmsClear, List.filter_append, List.filter_filter]

/-- Witness of C5: moving timer `7_200` of the four-timer state to the instant 99000. -/
theorem updateTimer_reschedule_witness :
    ((updateTimer cascadeState "7_200" 99000 none).2.alarms.filter
        (fun a => a.name == alarmName "7_200")) = [⟨alarmName "7_200", 99000⟩] :=
  (updateTimer_reschedule cascadeState "7_200" 99000 none (by decide)).1

/-- C6: `updateTimer` on an id that is not in the store returns `null` (response
`success: false`) and changes nothing; on an id in the store it returns the stored record
with `endTime` replaced, `label` replaced when one is given and kept otherwise, every other
field as before, and leaves the keys the same and every record under another key in
place. -/
theorem updateTimer_frame (tabsGet : Int → Option Tab) (now1 now2 : Nat) (s : State)
    (timerId : String) (newEndTime : Int) (newLabel : Option String) :
    (s.timers.has timerId = false →
      updateTimer s timerId newEndTime newLabel = (none, s) ∧
      onMessage tabsGet now1 now2 s (.updateTimer timerId newEndTime newLabel)
        = ({ success := false, timer := some none }, s)) ∧
    (s.timers.has timerId = true →
      ∃ old timer, s.timers.get timerId = some old ∧
        (updateTimer s timerId newEndTime newLabel).1 = some timer ∧
        (onMessage tabsGet now1 now2 s (.updateTimer timerId newEndTime newLabel)).1
          = { success := true, timer := some (some timer) } ∧
        timer.endTime = newEndTime ∧
        (∀ l, newLabel = some l → timer.label = l) ∧
        (newLabel = none → timer.label = old.label) ∧
        timer.id = old.id ∧ timer.tabId = old.tabId ∧ timer.type = old.type ∧
        timer.url = old.url ∧ timer.title = old.title ∧ timer.created = old.created ∧
        (updateTimer s timerId newEndTime newLabel).2.timers.get timerId = some timer ∧
        (updateTimer s timerId newEndTime newLabel).2.timers.keys = s.timers.keys ∧
        (∀ e, e.1 ≠ timerId →
          (e ∈ (updateTimer s timerId newEndTime newLabel).2.timers ↔ e ∈ s.timers))) := by
  constructor
  · intro h
    have hu := updateTimer_of_not_has s timerId newEndTime newLabel h
    refine ⟨hu, ?_⟩
    simp only [onMessage, hu]
    rfl
  · intro h
    obtain ⟨old, hold, hu⟩ := updateTimer_of_has s timerId newEndTime newLabel h
    refine ⟨old, updatedTimer old newEndTime newLabel, hold, by rw [hu], ?_, rfl, ?_, ?_,
      rfl, rfl, rfl, rfl, rfl, rfl, ?_, ?_, ?_⟩
    · simp only [onMessage, hu]
      rfl
    · intro l hl; subst hl; rfl
    · intro hl; subst hl; rfl
    · rw [hu]; exact TimerMap.get_set_self _ _ _
    · rw [hu]; exact TimerMap.keys_set_of_has _ _ _ h
    · intro e he; rw [hu]; exact TimerMap.mem_set_of_ne _ _ _ _ he

/-- Witness of C6: relabelling timer `7_200` of the four-timer state, and updating an
id that is not there. -/
theorem updateTimer_frame_witness :
    updateTimer cascadeState "9_100" 99000 (some "Later") = (none, cascadeState) ∧
    ∃ old timer, cascadeState.timers.get "7_200" = some old ∧
      (updateTimer cascadeState "7_200" 99000 (some "Later")).1 = some timer ∧
      timer.endTime = 99000 ∧ timer.label = "Later" ∧ timer.tabId = old.tabId :=
  ⟨((updateTimer_frame noTabs 0 0 cascadeState "9_100" 99000 (some "Later")).1
      (by decide)).1,
   match (updateTimer_frame noTabs 0 0 cascadeState "7_200" 99000 (some "Later")).2
      (by decide) with
   | ⟨old, timer, h1, h2, _, h4, h5, _, _, h8, _⟩ =>
     ⟨old, timer, h1, h2, h4, h5 "Later" rfl, h8⟩⟩

/-! ## Startup reconciliation -/

/-- C7: on a store with distinct keys and any alarm registry, `restoreAlarms` keeps
exactly the timers whose `endTime` is after `now`, appends to the registry one alarm
`timer_<id>` at `endTime` for each kept timer that had no alarm of that name, and
afterwards the alarms named after a kept timer are those that were there before when
there were any, and otherwise the single new one. -/
theorem restoreAlarms_reconciles (now : Nat) (s : State) (h : s.timers.keys.Nodup) :
    (restoreAlarms now s).timers
      = s.timers.filter (fun e => decide (e.2.endTime > (now : Int))) ∧
    (restoreAlarms now s).alarms
      = s.alarms ++
          (s.timers.filter (fun e => decide (e.2.endTime > (now : Int)) &&
              !(s.alarms.any (fun alarm => alarm.name == alarmName e.1)))).map
            (fun e => ⟨alarmName e.1, e.2.endTime⟩) ∧
    (∀ e ∈ (restoreAlarms now s).timers,
      (∃ a ∈ (restoreAlarms now s).alarms, a.name = alarmName e.1) ∧
      (restoreAlarms now s).alarms.filter (fun a => a.name == alarmName e.1)
        = if s.alarms.any (fun a => a.name == alarmName e.1)
          then s.alarms.filter (fun a => a.name == alarmName e.1)
          else [⟨alarmName e.1, e.2.endTime⟩]) := by
  have heq := restoreAlarms_eq now s h
  refine ⟨by rw [heq], by rw [heq], ?_⟩
  intro e he
  have hfil := restoreAlarms_filter_name now s h e (by rw [heq] at he; exact he)
  refine ⟨?_, hfil⟩
  by_cases hany : s.alarms.any (fun a => a.name == alarmName e.1) = true
  · obtain ⟨a, ha, hn⟩ := List.any_eq_true.1 hany
    refine ⟨a, ?_, by simpa using hn⟩
    rw [heq]
    exact List.mem_append_left _ ha
  · rw [if_neg hany] at hfil
    have hm : (⟨alarmName e.1, e.2.endTime⟩ : Alarm)
        ∈ (restoreAlarms now s).alarms.filter (fun a => a.name == alarmName e.1) := by
      rw [hfil]; exact List.mem_singleton_self _
    exact ⟨_, (List.mem_filter.1 hm).1, rfl⟩

/-- Witness of C7: the persisted store with one timer an hour ahead and no alarm for it,
one expired timer and one timer whose alarm survived, reconciled at the instant 1000. -/
theorem restoreAlarms_reconciles_witness :
    (restoreAlarms 1000 persistedState).timers
      = [("7_100", sampleTimer "7_100" 7 3601000), ("9_70", sampleTimer "9_70" 9 5000)] ∧
    (restoreAlarms 1000 persistedState).alarms
      = [⟨"timer_9_70", 5000⟩, ⟨"timer_7_100", 3601000⟩] :=
  ⟨(restoreAlarms_reconciles 1000 persistedState (by decide)).1.trans (by decide),
   (restoreAlarms_reconciles 1000 persistedState (by decide)).2.1.trans (by decide)⟩

/-! ## Store and alarm registry in step -/

/-- C8 as stated fails: a persisted timer with `endTime` 60100 whose surviving alarm
`timer_7_100` is set for 30100 is kept by reconciliation at the instant 1000, and no
alarm is created for it because one of that name exists; the timer has not expired and has
no alarm at its `endTime`. -/
theorem alarms_in_sync_counterexample :
    ¬ (∀ (now : Nat) (s0 : State) (events : List Event), s0.timers.keys.Nodup →
        ∀ e ∈ (run (restoreAlarms now s0) events).timers, e.2.endTime > (now : Int) →
          (⟨alarmName e.1, e.2.endTime⟩ : Alarm) ∈ (run (restoreAlarms now s0) events).alarms) := by
  intro hall
  have h := hall 1000 staleState [] (by decide) ("7_100", sampleTimer "7_100" 7 60100)
    (by decide) (by decide)
  revert h
  decide

/-- C8 amended: when the store loaded at startup has distinct keys and every alarm
already registered under the name of a loaded unexpired timer is set for that timer's
`endTime`, then after reconciliation and any sequence of commands, tab-closed,
tab-url-changed and alarm-fired events every timer in the store has an alarm
`timer_<id>` at exactly its `endTime`, and no alarm of that name at another instant. -/
theorem alarms_in_sync_reachable (now : Nat) (s0 : State) (events : List Event)
    (hkeys : s0.timers.keys.Nodup)
    (hpre : ∀ e ∈ s0.timers, e.2.endTime > (now : Int) →
      ∀ a ∈ s0.alarms, a.name = alarmName e.1 → a.scheduledTime = e.2.endTime) :
    ∀ e ∈ (run (restoreAlarms now s0) events).timers,
      (⟨alarmName e.1, e.2.endTime⟩ : Alarm) ∈ (run (restoreAlarms now s0) events).alarms ∧
      ∀ a ∈ (run (restoreAlarms now s0) events).alarms,
        a.name = alarmName e.1 → a.scheduledTime = e.2.endTime :=
  sync_run events _ (sync_restoreAlarms now s0 hkeys hpre)

/-- Witness of C8 amended: the persisted store reconciled at the instant 1000, followed by
a create, a navigation, an update of `9_70` to the instant 90000, an alarm whose tab is
gone, and a tab close; the alarm of `9_70` is at 90000. -/
theorem alarms_in_sync_reachable_witness :
    (⟨"timer_9_70", 90000⟩ : Alarm)
      ∈ (run (restoreAlarms 1000 persistedState) sampleEvents).alarms :=
  (alarms_in_sync_reachable 1000 persistedState sampleEvents (by decide) (by decide)
    ("9_70", { sampleTimer "9_70" 9 5000 with endTime := 90000 }) (by decide)).1

/-! ## Alarm fired -/

/-- C9: `handleAlarm` always completes without an exception.  On the alarm name of an id
in the store it calls `chrome.tabs.remove` once, on that timer's tab, and leaves the store
without the records of that id and otherwise as it was, whatever `chrome.tabs.remove`
answers; on the alarm name of an id that is not in the store, and on a name that does not
start with `timer_`, it calls nothing and changes nothing.  A name that starts with
`timer_` is the alarm name of some id. -/
theorem handleAlarm_fire_and_forget (tabsRemove : Int → Except String Unit) (s : State)
    (name : String) :
    (∃ out, handleAlarm tabsRemove s name = .ok out) ∧
    (∀ timerId timer, name = alarmName timerId → s.timers.get timerId = some timer →
      handleAlarm tabsRemove s name
        = .ok ⟨{ timers := s.timers.delete timerId, alarms := s.alarms }, [timer.tabId]⟩ ∧
      (s.timers.delete timerId).has timerId = false ∧
      ∀ e, e ∈ s.timers.delete timerId ↔ e ∈ s.timers ∧ e.1 ≠ timerId) ∧
    (∀ timerId, name = alarmName timerId → s.timers.get timerId = none →
      handleAlarm tabsRemove s name = .ok ⟨s, []⟩) ∧
    (startsWith name "timer_" = false → handleAlarm tabsRemove s name = .ok ⟨s, []⟩) ∧
    (startsWith name "timer_" = true → ∃ timerId, name = alarmName timerId) := by
  refine ⟨?_, ?_, ?_, handleAlarm_of_foreign_name _ _ _, alarmName_of_startsWith _⟩
  · by_cases hp : startsWith name "timer_" = true
    · cases hg : s.timers.get (replace name "timer_" "") with
      | none => exact ⟨_, handleAlarm_of_absent _ _ _ hg⟩
      | some timer => exact ⟨_, handleAlarm_of_present _ _ _ timer hp hg⟩
    · exact ⟨_, handleAlarm_of_foreign_name _ _ _ (by simpa using hp)⟩
  · intro timerId timer hn hg
    subst hn
    refine ⟨?_, TimerMap.has_delete_self _ _, fun e => TimerMap.mem_delete _ _ _⟩
    have := handleAlarm_of_present tabsRemove s (alarmName timerId) timer
      (startsWith_alarmName _) (by rw [replace_alarmName]; exact hg)
    rw [replace_alarmName] at this
    exact this
  · intro timerId hn hg
    subst hn
    exact handleAlarm_of_absent _ _ _ (by rw [replace_alarmName]; exact hg)

/-- Witness of C9: the alarm of the timer whose id is `timer_5`, fired while its tab is
gone; and an alarm of another extension feature. -/
theorem handleAlarm_fire_and_forget_witness :
    handleAlarm closeFails nestedNameState "timer_timer_5"
      = .ok ⟨{ timers := [], alarms := nestedNameState.alarms }, [5]⟩ ∧
    handleAlarm closeFails nestedNameState "heartbeat" = .ok ⟨nestedNameState, []⟩ :=
  ⟨((handleAlarm_fire_and_forget closeFails nestedNameState "timer_timer_5").2.1
      "timer_5" (sampleTimer "timer_5" 5 60100) (by decide) (by decide)).1,
   (handleAlarm_fire_and_forget closeFails nestedNameState "heartbeat").2.2.2.1 (by decide)⟩

/-! ## Navigation -/

/-- C10: on a store with distinct keys, `updateTimerUrl` for tab `t` replaces `url` by
`u` in every record whose `tabId` is `t` and leaves every other record, the keys, their
order and the alarm registry as they were; the `onUpdated` listener does this for every
non-empty `changeInfo.url`. -/
theorem updateTimerUrl_frame (s : State) (t : Int) (u : String)
    (h : s.timers.keys.Nodup) :
    (updateTimerUrl s (numToString t) u).timers
      = s.timers.map (fun e => if e.2.tabId = t then (e.1, { e.2 with url := u }) else e) ∧
    (updateTimerUrl s (numToString t) u).timers.keys = s.timers.keys ∧
    (updateTimerUrl s (numToString t) u).alarms = s.alarms ∧
    (u ≠ "" → onUpdated s t (some u) = updateTimerUrl s (numToString t) u) := by
  have hmap : (updateTimerUrl s (numToString t) u).timers
      = s.timers.map (fun e => if e.2.tabId = t then (e.1, { e.2 with url := u }) else e) := by
    have := urlLoop_eq_map (some t) u s.timers [] (by simpa using h)
    simp only [List.map_nil, List.nil_append, Option.some.injEq] at this
    simp only [updateTimerUrl, parseInt_numToString, this]
  refine ⟨hmap, ?_, rfl, ?_⟩
  · rw [hmap]
    simp only [TimerMap.keys, List.map_map]
    apply List.map_congr_left
    intro e _
    by_cases he : e.2.tabId = t <;> simp [he]
  · intro hu
    simp [onUpdated, hu]

/-- Witness of C10: tab 7 of the four-timer state navigates. -/
theorem updateTimerUrl_frame_witness :
    (updateTimerUrl cascadeState (numToString 7) "https://b.example/").timers
      = [("7_100", { sampleTimer "7_100" 7 60100 with url := "https://b.example/" }),
         ("7_200", { sampleTimer "7_200" 7 60200 with url := "https://b.example/" }),
         ("7_300", { sampleTimer "7_300" 7 60300 with url := "https://b.example/" }),
         ("8_100", sampleTimer "8_100" 8 60100)] :=
  (updateTimerUrl_frame cascadeState 7 "https://b.example/" (by decide)).1.trans (by decide)

/-! ## Unfolding `createTimer` -/

theorem createTimer_of_tab (tabsGet : Int → Option Tab) (nowId nowCreated : Nat) (s : State)
    (tabId endTime : Int) (type label : Option String) (tab : Tab)
    (h : tabsGet tabId = some tab) :
    createTimer tabsGet nowId nowCreated s tabId endTime type label
      = (some (createdTimer tab nowId nowCreated tabId endTime type label),
         { timers := s.timers.set (numToString tabId ++ "_" ++ numToString nowId)
             (createdTimer tab nowId nowCreated tabId endTime type label)
           alarms := alarmsCreate s.alarms
             (alarmName (numToString tabId ++ "_" ++ numToString nowId)) endTime }) := by
  simp [createTimer, parseInt_numToString, h, createAlarm, createdTimer]

theorem createTimer_of_no_tab (tabsGet : Int → Option Tab) (nowId nowCreated : Nat)
    (s : State) (tabId endTime : Int) (type label : Option String)
    (h : tabsGet tabId = none) :
    createTimer tabsGet nowId nowCreated s tabId endTime type label = (none, s) := by
  simp [createTimer, parseInt_numToString, h]

theorem getTimersByTab_eq (s : State) (tabId : Int) :
    getTimersByTab s tabId = (getTimers s).filter (fun timer => decide (timer.tabId = tabId)) := by
  simp only [getTimersByTab, parseInt_numToString, Option.some.injEq]

theorem filter_tab_eq_nil (l : TimerMap) (t : Int) (h : ∀ e ∈ l, e.2.tabId ≠ t) :
    (TimerMap.values l).filter (fun timer => decide (timer.tabId = t)) = [] := by
  rw [List.filter_eq_nil_iff]
  intro x hx
  simp only [TimerMap.values, List.mem_map] at hx
  obtain ⟨e, he, rfl⟩ := hx
  simpa using h e he

theorem set_of_not_has (m : TimerMap) (k : String) (v : Timer) (h : m.has k = false) :
    m.set k v = m ++ [(k, v)] := by
  simp [TimerMap.set, h]

theorem split_at_key {m : TimerMap} {k : String} (hnd : m.keys.Nodup)
    (h : m.has k = true) :
    ∃ pre old rest, m = pre ++ (k, old) :: rest ∧ k ∉ TimerMap.keys pre ∧
      k ∉ TimerMap.keys rest := by
  rw [TimerMap.has_iff] at h
  simp only [TimerMap.keys, List.mem_map] at h
  obtain ⟨e, he, hk⟩ := h
  obtain ⟨pre, rest, hm⟩ := List.append_of_mem he
  obtain ⟨k0, old⟩ := e
  simp only at hk
  subst hk
  refine ⟨pre, old, rest, hm, ?_, ?_⟩
  · intro hin
    rw [hm] at hnd
    have hsplit : TimerMap.keys (pre ++ (k0, old) :: rest)
        = TimerMap.keys pre ++ k0 :: TimerMap.keys rest := by
      simp [TimerMap.keys]
    rw [hsplit] at hnd
    exact (List.nodup_append.1 hnd).2.2 hin (List.mem_cons_self _ _)
  · rw [hm] at hnd
    have hsplit : TimerMap.keys (pre ++ (k0, old) :: rest)
        = TimerMap.keys pre ++ k0 :: TimerMap.keys rest := by
      simp [TimerMap.keys]
    rw [hsplit] at hnd
    exact (List.nodup_cons.1 (List.nodup_append.1 hnd).2.1).1

theorem filter_tab_set (m : TimerMap) (k : String) (v : Timer) (t : Int)
    (hnd : m.keys.Nodup) (hnone : ∀ e ∈ m, e.2.tabId ≠ t) (hv : v.tabId = t) :
    (TimerMap.values (m.set k v)).filter (fun timer => decide (timer.tabId = t)) = [v] := by
  by_cases hh : m.has k = true
  · obtain ⟨pre, old, rest, hm, hpre, hrest⟩ := split_at_key hnd hh
    have hnpre : ∀ e ∈ pre, e.2.tabId ≠ t := fun e he =>
      hnone e (by rw [hm]; exact List.mem_append_left _ he)
    have hnrest : ∀ e ∈ rest, e.2.tabId ≠ t := fun e he =>
      hnone e (by rw [hm]; exact List.mem_append_right _ (List.mem_cons_of_mem _ he))
    have h1 := filter_tab_eq_nil pre t hnpre
    have h2 := filter_tab_eq_nil rest t hnrest
    rw [hm, set_middle pre rest k old v hpre hrest]
    simp only [TimerMap.values, List.map_append, List.map_cons, List.filter_append,
      List.filter_cons, hv, decide_True, if_true] at h1 h2 ⊢
    rw [h1, h2]
    rfl
  · have hh0 : m.has k = false := by simpa using hh
    have h1 := filter_tab_eq_nil m t hnone
    rw [set_of_not_has m k v hh0]
    simp only [TimerMap.values, List.map_append, List.map_cons, List.map_nil,
      List.filter_append, List.filter_cons, List.filter_nil, hv, decide_True, if_true] at h1 ⊢
    rw [h1]
    rfl

/-! ## Create, then list by tab -/

/-- C11: on a store with distinct keys that holds no timer for tab `t`, a `createTimer` for
`t` that succeeds returns a timer with `tabId = t` and the given `endTime`, `type` and
`label` (an absent `type` or `label` taking the default of the parameter list), and
`getTimersByTab(t)` on the state it leaves returns that one timer and nothing else;
`getTimersByTab` always returns the timers of `getTimers()` whose `tabId` is the tab asked
for, in the same order. -/
theorem createTimer_then_getTimersByTab (tabsGet : Int → Option Tab) (nowId nowCreated : Nat)
    (s s1 : State) (t endTime : Int) (type label : Option String) (timer : Timer)
    (hkeys : s.timers.keys.Nodup) (hnone : ∀ e ∈ s.timers, e.2.tabId ≠ t)
    (hres : createTimer tabsGet nowId nowCreated s t endTime type label = (some timer, s1)) :
    timer.tabId = t ∧ timer.endTime = endTime ∧
    timer.type = type.getD "countdown" ∧ timer.label = label.getD "" ∧
    (∀ ty, type = some ty → timer.type = ty) ∧ (∀ l, label = some l → timer.label = l) ∧
    getTimersByTab s1 t = [timer] ∧
    ∀ (s2 : State) (t2 : Int),
      getTimersByTab s2 t2 = (getTimers s2).filter (fun x => decide (x.tabId = t2)) := by
  cases hg : tabsGet t with
  | none =>
    rw [createTimer_of_no_tab _ _ _ _ _ _ _ _ hg] at hres
    cases hres
  | some tab =>
    rw [createTimer_of_tab _ _ _ _ _ _ _ _ tab hg] at hres
    simp only [Prod.mk.injEq, Option.some.injEq] at hres
    obtain ⟨htimer, hs1⟩ := hres
    subst htimer
    subst hs1
    refine ⟨rfl, rfl, rfl, rfl, ?_, ?_, ?_, getTimersByTab_eq⟩
    · intro ty hty; subst hty; rfl
    · intro l hl; subst hl; rfl
    · rw [getTimersByTab_eq]
      exact filter_tab_set s.timers _ _ t hkeys hnone rfl

/-- Witness of C11: a countdown timer labelled `Break` for tab 42 on the four-timer
state. -/
theorem createTimer_then_getTimersByTab_witness :
    getTimersByTab
        (createTimer someTabs 1000 1000 cascadeState 42 61000 (some "countdown")
          (some "Break")).2 42
      = [createdTimer ⟨"https://a.example/", "A"⟩ 1000 1000 42 61000 (some "countdown")
          (some "Break")] :=
  (createTimer_then_getTimersByTab someTabs 1000 1000 cascadeState _ 42 61000
    (some "countdown") (some "Break") _ (by decide) (by decide) (by decide)).2.2.2.2.2.2.1

/-! ## Timer ids -/

theorem numToString_injective {a b : Int} (h : numToString a = numToString b) : a = b := by
  have ha := parseInt_numToString a
  rw [h, parseInt_numToString] at ha
  exact (Option.some.inj ha).symm

theorem timerId_injective {t t2 : Int} {n n2 : Nat}
    (h : numToString t ++ "_" ++ numToString n = numToString t2 ++ "_" ++ numToString n2) :
    t = t2 ∧ n = n2 := by
  have h1 := parseInt_timerId t (numToString n)
  rw [h, parseInt_timerId] at h1
  have ht : t = t2 := (Option.some.inj h1).symm
  subst ht
  refine ⟨rfl, ?_⟩
  have hd := congrArg String.data h
  simp only [String.data_append] at hd
  have hd2 := List.append_cancel_left hd
  have hn : numToString (n : Int) = numToString (n2 : Int) := String.ext hd2
  exact Int.ofNat.inj (numToString_injective hn)

/-- C12 as stated fails: tab 7 holds one timer created at the clock reading 1000; a second
`createTimer` for tab 7 at the same reading builds the same id `7_1000`, writes its record
over the first one, and the store still holds one record. -/
theorem createTimer_unique_id_counterexample :
    ¬ (∀ (tabsGet : Int → Option Tab) (nowId nowCreated : Nat) (s s1 : State)
        (tabId endTime : Int) (type label : Option String) (timer : Timer),
        s.timers.keys.Nodup →
        createTimer tabsGet nowId nowCreated s tabId endTime type label = (some timer, s1) →
        (∀ e ∈ s.timers, e.1 ≠ timer.id) ∧
        s1.timers.length = s.timers.length + 1 ∧
        ∀ e ∈ s.timers, e ∈ s1.timers) := by
  intro hall
  have h := (hall someTabs 1000 1000 collisionState
    (createTimer someTabs 1000 1000 collisionState 7 91000 none (some "Second")).2
    7 91000 none (some "Second")
    (createdTimer ⟨"https://a.example/", "A"⟩ 1000 1000 7 91000 none (some "Second"))
    (by decide) (by decide)).2.1
  revert h
  decide

/-- C12 amended: a `createTimer` that succeeds and whose id `<tabId>_<creationEpochMs>` is
not yet a key of the store appends one record under that id, so the store grows by exactly
one and every record stored before is still there, unchanged and in the same order; two
ids of that form are equal only for the same tab id and the same clock reading. -/
theorem createTimer_fresh_id (tabsGet : Int → Option Tab) (nowId nowCreated : Nat)
    (s s1 : State) (tabId endTime : Int) (type label : Option String) (timer : Timer)
    (hres : createTimer tabsGet nowId nowCreated s tabId endTime type label = (some timer, s1))
    (hfresh : s.timers.has (numToString tabId ++ "_" ++ numToString nowId) = false) :
    timer.id = numToString tabId ++ "_" ++ numToString nowId ∧
    (∀ e ∈ s.timers, e.1 ≠ timer.id) ∧
    s1.timers = s.timers ++ [(timer.id, timer)] ∧
    s1.timers.length = s.timers.length + 1 ∧
    (∀ e ∈ s.timers, e ∈ s1.timers) ∧
    (∀ (t2 : Int) (n2 : Nat),
      numToString t2 ++ "_" ++ numToString n2 = timer.id → t2 = tabId ∧ n2 = nowId) := by
  cases hg : tabsGet tabId with
  | none =>
    rw [createTimer_of_no_tab _ _ _ _ _ _ _ _ hg] at hres
    cases hres
  | some tab =>
    rw [createTimer_of_tab _ _ _ _ _ _ _ _ tab hg] at hres
    simp only [Prod.mk.injEq, Option.some.injEq] at hres
    obtain ⟨htimer, hs1⟩ := hres
    subst htimer
    subst hs1
    have hset := set_of_not_has s.timers _
      (createdTimer tab nowId nowCreated tabId endTime type label) hfresh
    refine ⟨rfl, ?_, hset, ?_, ?_, ?_⟩
    · intro e he hk
      have : s.timers.has (numToString tabId ++ "_" ++ numToString nowId) = true := by
        rw [TimerMap.has_iff]
        exact List.mem_map.2 ⟨e, he, hk⟩
      rw [this] at hfresh
      cases hfresh
    · show (s.timers.set _ _).length = _
      rw [hset]; simp
    · intro e he
      show e ∈ s.timers.set _ _
      rw [hset]; exact List.mem_append_left _ he
    · intro t2 n2 h2
      exact timerId_injective h2

/-- Witness of C12 amended: a second timer for tab 7, created one millisecond after the
first. -/
theorem createTimer_fresh_id_witness :
    (createTimer someTabs 1001 1001 collisionState 7 91000 none (some "Second")).2.timers.length
      = collisionState.timers.length + 1 :=
  (createTimer_fresh_id someTabs 1001 1001 collisionState _ 7 91000 none (some "Second")
    (createdTimer ⟨"https://a.example/", "A"⟩ 1001 1001 7 91000 none (some "Second"))
    (by decide) (by decide)).2.2.2.1

/-! ## Validation in the popup -/

theorem popup_createTimer_sent (getTime : String → Option Int) (now1 now2 : Nat)
    (currentTab : Option Int) (form : Popup.Form) (c : Popup.Command)
    (h : Popup.createTimer getTime now1 now2 currentTab form = .sent c) :
    (form.timerType = "countdown" ∧
      30 ≤ Popup.numberField form.hours * 3600 + Popup.numberField form.minutes * 60
        + Popup.numberField form.seconds ∧
      c.endTime = some ((now1 : Int) + (Popup.numberField form.hours * 3600
        + Popup.numberField form.minutes * 60 + Popup.numberField form.seconds) * 1000)) ∨
    (form.timerType ≠ "countdown" ∧ form.scheduledTime ≠ "" ∧
      c.endTime = getTime form.scheduledTime ∧
      ∀ e, getTime form.scheduledTime = some e →
        (now1 : Int) < e ∧ 30000 ≤ e - (now2 : Int)) := by
  unfold Popup.createTimer at h
  cases currentTab with
  | none => cases h
  | some tabId =>
    simp only at h
    by_cases hty : form.timerType = "countdown"
    · left
      rw [if_pos hty] at h
      split at h
      · cases h
      · rename_i hlt
        cases h
        exact ⟨hty, by omega, rfl⟩
    · right
      rw [if_neg hty] at h
      split at h
      · cases h
      · rename_i hne
        split at h
        · cases h
        · rename_i h1
          split at h
          · cases h
          · rename_i h2
            cases h
            refine ⟨hty, hne, rfl, ?_⟩
            intro e he
            rw [he] at h1 h2
            simp only [Popup.notAfter, Popup.within30000, decide_eq_true_eq] at h1 h2
            omega

theorem popup_saveEditedTimer_sent (getTime : String → Option Int) (now1 now2 : Nat)
    (editingTimer : Option Timer) (form : Popup.Form) (c : Popup.Command)
    (h : Popup.saveEditedTimer getTime now1 now2 editingTimer form = .sent c) :
    (form.timerType = "countdown" ∧
      30 ≤ Popup.numberField form.hours * 3600 + Popup.numberField form.minutes * 60
        + Popup.numberField form.seconds ∧
      c.endTime = some ((now1 : Int) + (Popup.numberField form.hours * 3600
        + Popup.numberField form.minutes * 60 + Popup.numberField form.seconds) * 1000)) ∨
    (form.timerType ≠ "countdown" ∧ form.scheduledTime ≠ "" ∧
      c.endTime = getTime form.scheduledTime ∧
      ∀ e, getTime form.scheduledTime = some e →
        (now1 : Int) < e ∧ 30000 ≤ e - (now2 : Int)) := by
  unfold Popup.saveEditedTimer at h
  cases editingTimer with
  | none => cases h
  | some timer =>
    simp only at h
    by_cases hty : form.timerType = "countdown"
    · left
      rw [if_pos hty] at h
      split at h
      · cases h
      · rename_i hlt
        cases h
        exact ⟨hty, by omega, rfl⟩
    · right
      rw [if_neg hty] at h
      split at h
      · cases h
      · rename_i hne
        split at h
        · cases h
        · rename_i h1
          split at h
          · cases h
          · rename_i h2
            cases h
            refine ⟨hty, hne, rfl, ?_⟩
            intro e he
            rw [he] at h1 h2
            simp only [Popup.notAfter, Popup.within30000, decide_eq_true_eq] at h1 h2
            omega

theorem popup_createTimer_countdown (getTime : String → Option Int) (now1 now2 : Nat)
    (tabId : Int) (form : Popup.Form) (hty : form.timerType = "countdown")
    (h30 : 30 ≤ Popup.numberField form.hours * 3600 + Popup.numberField form.minutes * 60
      + Popup.numberField form.seconds) :
    Popup.createTimer getTime now1 now2 (some tabId) form
      = .sent (.createTimer tabId
          (some ((now1 : Int) + (Popup.numberField form.hours * 3600
            + Popup.numberField form.minutes * 60 + Popup.numberField form.seconds) * 1000))
          form.timerType (if form.label = "" then form.timerType ++ " timer" else form.label)) := by
  have hlt : ¬ (Popup.numberField form.hours * 3600 + Popup.numberField form.minutes * 60
      + Popup.numberField form.seconds < 30) := by omega
  simp only [Popup.createTimer, hty, if_true, hlt, if_false]

theorem popup_saveEditedTimer_countdown (getTime : String → Option Int) (now1 now2 : Nat)
    (timer : Timer) (form : Popup.Form) (hty : form.timerType = "countdown")
    (h30 : 30 ≤ Popup.numberField form.hours * 3600 + Popup.numberField form.minutes * 60
      + Popup.numberField form.seconds) :
    Popup.saveEditedTimer getTime now1 now2 (some timer) form
      = .sent (.updateTimer timer.id
          (some ((now1 : Int) + (Popup.numberField form.hours * 3600
            + Popup.numberField form.minutes * 60 + Popup.numberField form.seconds) * 1000))
          (if form.label = "" then form.timerType ++ " timer" else form.label)) := by
  have hlt : ¬ (Popup.numberField form.hours * 3600 + Popup.numberField form.minutes * 60
      + Popup.numberField form.seconds < 30) := by omega
  simp only [Popup.saveEditedTimer, hty, if_true, hlt, if_false]

theorem popup_createTimer_scheduled (getTime : String → Option Int) (now1 now2 : Nat)
    (tabId : Int) (form : Popup.Form) (e : Int) (hty : form.timerType ≠ "countdown")
    (hne : form.scheduledTime ≠ "") (he : getTime form.scheduledTime = some e)
    (h1 : (now1 : Int) < e) (h2 : 30000 ≤ e - (now2 : Int)) :
    Popup.createTimer getTime now1 now2 (some tabId) form
      = .sent (.createTimer tabId (some e) form.timerType
          (if form.label = "" then form.timerType ++ " timer" else form.label)) := by
  have g1 : Popup.notAfter (some e) now1 = false := by
    simp only [Popup.notAfter, decide_eq_false_iff_not]; omega
  have g2 : Popup.within30000 (some e) now2 = false := by
    simp only [Popup.within30000, decide_eq_false_iff_not]; omega
  simp only [Popup.createTimer, hty, if_false, hne, he, g1, g2, Bool.false_eq_true]

theorem popup_saveEditedTimer_scheduled (getTime : String → Option Int) (now1 now2 : Nat)
    (timer : Timer) (form : Popup.Form) (e : Int) (hty : form.timerType ≠ "countdown")
    (hne : form.scheduledTime ≠ "") (he : getTime form.scheduledTime = some e)
    (h1 : (now1 : Int) < e) (h2 : 30000 ≤ e - (now2 : Int)) :
    Popup.saveEditedTimer getTime now1 now2 (some timer) form
      = .sent (.updateTimer timer.id (some e)
          (if form.label = "" then form.timerType ++ " timer" else form.label)) := by
  have g1 : Popup.notAfter (some e) now1 = false := by
    simp only [Popup.notAfter, decide_eq_false_iff_not]; omega
  have g2 : Popup.within30000 (some e) now2 = false := by
    simp only [Popup.within30000, decide_eq_false_iff_not]; omega
  simp only [Popup.saveEditedTimer, hty, if_false, hne, he, g1, g2, Bool.false_eq_true]

/-- C13 as stated fails: in scheduled mode a field text that is no date reads as NaN,
both comparisons with the clock are false on NaN, and `createTimer` of the popup sends the
command with `endTime` NaN, so the command sent carries no instant that is 30 seconds or
more after a clock reading. -/
theorem popup_validation_counterexample :
    ¬ (∀ (getTime : String → Option Int) (now1 now2 : Nat) (currentTab : Option Int)
        (form : Popup.Form) (c : Popup.Command),
        Popup.createTimer getTime now1 now2 currentTab form = .sent c →
        ∃ e, c.endTime = some e ∧
          (30000 ≤ e - (now1 : Int) ∨ 30000 ≤ e - (now2 : Int))) := by
  intro hall
  have h := hall Popup.oneDate 1000 1000 (some 42) Popup.noDateForm
    (.createTimer 42 none "scheduled" "scheduled timer") (by decide)
  obtain ⟨e, he, _⟩ := h
  cases he

/-- C13 amended: `createTimer` and `saveEditedTimer` of the popup send a command only for
a duration of at least 30 seconds, for every form input in countdown mode and for every
form input in scheduled mode whose field text denotes an instant.  In countdown mode no
command is sent when `hours*3600 + minutes*60 + seconds < 30`; otherwise a command is sent
(given a current tab, or a timer being edited) and the `endTime` sent is
`now + (hours*3600 + minutes*60 + seconds)*1000`.  In scheduled mode no command is sent
when the field is empty, when the instant is not after the first clock reading, or when it
is less than 30000 ms after the second; otherwise the command carries the instant. -/
theorem popup_validation (getTime : String → Option Int) (now1 now2 : Nat)
    (currentTab : Option Int) (editingTimer : Option Timer) (form : Popup.Form) :
    (form.timerType = "countdown" → Popup.totalSeconds form < 30 →
      (∀ c, Popup.createTimer getTime now1 now2 currentTab form ≠ .sent c) ∧
      (∀ c, Popup.saveEditedTimer getTime now1 now2 editingTimer form ≠ .sent c)) ∧
    (form.timerType = "countdown" → 30 ≤ Popup.totalSeconds form →
      (∀ tabId, currentTab = some tabId →
        ∃ c, Popup.createTimer getTime now1 now2 currentTab form = .sent c ∧
          c.endTime = some ((now1 : Int) + Popup.totalSeconds form * 1000)) ∧
      (∀ timer, editingTimer = some timer →
        ∃ c, Popup.saveEditedTimer getTime now1 now2 editingTimer form = .sent c ∧
          c.endTime = some ((now1 : Int) + Popup.totalSeconds form * 1000)) ∧
      (∀ c, Popup.createTimer getTime now1 now2 currentTab form = .sent c ∨
          Popup.saveEditedTimer getTime now1 now2 editingTimer form = .sent c →
        c.endTime = some ((now1 : Int) + Popup.totalSeconds form * 1000))) ∧
    (form.timerType ≠ "countdown" → form.scheduledTime = "" →
      (∀ c, Popup.createTimer getTime now1 now2 currentTab form ≠ .sent c) ∧
      (∀ c, Popup.saveEditedTimer getTime now1 now2 editingTimer form ≠ .sent c)) ∧
    (form.timerType ≠ "countdown" → ∀ e, getTime form.scheduledTime = some e →
      (e ≤ (now1 : Int) ∨ e - (now2 : Int) < 30000) →
      (∀ c, Popup.createTimer getTime now1 now2 currentTab form ≠ .sent c) ∧
      (∀ c, Popup.saveEditedTimer getTime now1 now2 editingTimer form ≠ .sent c)) ∧
    (form.timerType ≠ "countdown" → form.scheduledTime ≠ "" →
      ∀ e, getTime form.scheduledTime = some e → (now1 : Int) < e →
        30000 ≤ e - (now2 : Int) →
      (∀ tabId, currentTab = some tabId →
        ∃ c, Popup.createTimer getTime now1 now2 currentTab form = .sent c ∧
          c.endTime = some e) ∧
      (∀ timer, editingTimer = some timer →
        ∃ c, Popup.saveEditedTimer getTime now1 now2 editingTimer form = .sent c ∧
          c.endTime = some e)) ∧
    (∀ c, Popup.createTimer getTime now1 now2 currentTab form = .sent c ∨
        Popup.saveEditedTimer getTime now1 now2 editingTimer form = .sent c →
      (form.timerType = "countdown" ∧ 30 ≤ Popup.totalSeconds form) ∨
      (form.timerType ≠ "countdown" ∧
        ∀ e, getTime form.scheduledTime = some e →
          c.endTime = some e ∧ (now1 : Int) < e ∧ 30000 ≤ e - (now2 : Int))) ∧
    (∀ c, Popup.createTimer getTime now1 now2 currentTab form = .sent c ∨
        Popup.saveEditedTimer getTime now1 now2 editingTimer form = .sent c →
      (form.timerType = "countdown" ∨ ∃ e, getTime form.scheduledTime = some e) →
      ∃ e, c.endTime = some e ∧
        (30000 ≤ e - (now1 : Int) ∨ 30000 ≤ e - (now2 : Int))) := by
  have hsent : ∀ c, Popup.createTimer getTime now1 now2 currentTab form = .sent c ∨
      Popup.saveEditedTimer getTime now1 now2 editingTimer form = .sent c →
      (form.timerType = "countdown" ∧ 30 ≤ Popup.totalSeconds form ∧
        c.endTime = some ((now1 : Int) + Popup.totalSeconds form * 1000)) ∨
      (form.timerType ≠ "countdown" ∧ form.scheduledTime ≠ "" ∧
        c.endTime = getTime form.scheduledTime ∧
        ∀ e, getTime form.scheduledTime = some e →
          (now1 : Int) < e ∧ 30000 ≤ e - (now2 : Int)) := by
    intro c hc
    rcases hc with hc | hc
    · exact popup_createTimer_sent getTime now1 now2 currentTab form c hc
    · exact popup_saveEditedTimer_sent getTime now1 now2 editingTimer form c hc
  refine ⟨?_, ?_, ?_, ?_, ?_, ?_, ?_⟩
  · intro hty hlt
    constructor
    · intro c hc
      rcases hsent c (Or.inl hc) with ⟨_, h30, _⟩ | ⟨hne, _⟩
      · omega
      · exact hne hty
    · intro c hc
      rcases hsent c (Or.inr hc) with ⟨_, h30, _⟩ | ⟨hne, _⟩
      · omega
      · exact hne hty
  · intro hty h30
    refine ⟨?_, ?_, ?_⟩
    · intro tabId htab
      subst htab
      exact ⟨_, popup_createTimer_countdown getTime now1 now2 tabId form hty h30, rfl⟩
    · intro timer hed
      subst hed
      exact ⟨_, popup_saveEditedTimer_countdown getTime now1 now2 timer form hty h30, rfl⟩
    · intro c hc
      rcases hsent c hc with ⟨_, _, hend⟩ | ⟨hne, _⟩
      · exact hend
      · exact absurd hty hne
  · intro hty hempty
    constructor
    · intro c hc
      rcases hsent c (Or.inl hc) with ⟨h, _⟩ | ⟨_, hne, _⟩
      · exact hty h
      · exact hne hempty
    · intro c hc
      rcases hsent c (Or.inr hc) with ⟨h, _⟩ | ⟨_, hne, _⟩
      · exact hty h
      · exact hne hempty
  · intro hty e he hbad
    constructor
    · intro c hc
      rcases hsent c (Or.inl hc) with ⟨h, _⟩ | ⟨_, _, _, hall⟩
      · exact hty h
      · have := hall e he
        omega
    · intro c hc
      rcases hsent c (Or.inr hc) with ⟨h, _⟩ | ⟨_, _, _, hall⟩
      · exact hty h
      · have := hall e he
        omega
  · intro hty hne e he h1 h2
    constructor
    · intro tabId htab
      subst htab
      exact ⟨_, popup_createTimer_scheduled getTime now1 now2 tabId form e hty hne he h1 h2,
        rfl⟩
    · intro timer hed
      subst hed
      exact ⟨_, popup_saveEditedTimer_scheduled getTime now1 now2 timer form e hty hne he
        h1 h2, rfl⟩
  · intro c hc
    rcases hsent c hc with ⟨hty, h30, _⟩ | ⟨hty, _, hend, hall⟩
    · exact Or.inl ⟨hty, h30⟩
    · right
      refine ⟨hty, ?_⟩
      intro e he
      exact ⟨by rw [hend, he], hall e he⟩
  · intro c hc hdate
    rcases hsent c hc with ⟨_, h30, hend⟩ | ⟨hty, _, hend, hall⟩
    · exact ⟨_, hend, Or.inl (by omega)⟩
    · rcases hdate with hcd | ⟨e, he⟩
      · exact absurd hcd hty
      · exact ⟨e, by rw [hend, he], Or.inr (hall e he).2⟩

/-- Witness of C13 amended: at the clock reading 1000 a countdown of 45 seconds for tab 42
is sent with `endTime` 46000 and a countdown of 29 seconds is not sent; a scheduled instant
100000 is sent as it is at the clock reading 1000 and is not sent at the clock reading
99000. -/
theorem popup_validation_witness :
    (∃ c, Popup.createTimer Popup.fixedDate 1000 1000 (some 42) Popup.countdownForm = .sent c ∧
      c.endTime = some 46000) ∧
    Popup.createTimer Popup.fixedDate 1000 1000 (some 42) Popup.shortForm
      ≠ .sent (.createTimer 42 (some 30000) "countdown" "countdown timer") ∧
    (∃ c, Popup.createTimer Popup.fixedDate 1000 1000 (some 42) Popup.scheduledForm = .sent c ∧
      c.endTime = some 100000) ∧
    Popup.saveEditedTimer Popup.fixedDate 99000 99000 (some (sampleTimer "7_100" 7 60100))
        Popup.scheduledForm
      ≠ .sent (.updateTimer "7_100" (some 100000) "scheduled timer") :=
  ⟨((popup_validation Popup.fixedDate 1000 1000 (some 42) none Popup.countdownForm).2.1
      (by decide) (by decide)).1 42 rfl,
   ((popup_validation Popup.fixedDate 1000 1000 (some 42) none Popup.shortForm).1
      (by decide) (by decide)).1 _,
   ((popup_validation Popup.fixedDate 1000 1000 (some 42) none
      Popup.scheduledForm).2.2.2.2.1 (by decide) (by decide) 100000 rfl (by decide)
      (by decide)).1 42 rfl,
   ((popup_validation Popup.fixedDate 99000 99000 none (some (sampleTimer "7_100" 7 60100))
      Popup.scheduledForm).2.2.2.1 (by decide) 100000 rfl (Or.inr (by decide))).2 _⟩

end TabTimer
